import Mathlib

/-!
Verification of the terminal-service session lifecycle core.

Shallow embedding of the Python sources under `src/terminal/`:

* `storage/terminal_crud.py`, `storage/terminal_lifecycle.py`,
  `storage/terminal_claude.py`, `storage/terminal_project.py`,
  `storage/pane_crud.py` — the Store layer, modelled as pure functions on a
  list of session rows.
* `services/lifecycle_core.py`, `services/lifecycle_batch.py`,
  `services/lifecycle_reconcile.py` — the lifecycle layer; the tmux server is
  modelled as the list of existing session names, and tmux `new-session`
  subprocess failure as an explicit boolean oracle.
* `services/pty_manager.py` — the PTY reader's UTF-8 chunk decoding.
* `utils/tmux.py` — session naming, name validation, session listing.

Machine strings are Lean `String`s, timestamps are `Nat`, SQL `NULL`able
columns are `Option`s.  Each theorem states one property of the embedded
code and is proved against these definitions.
-/

namespace Terminal

/-- A value passed for one column, as in the `**fields` keyword dictionary of
`Store.update_session` (`storage/terminal_crud.py`).  SQL `NULL` is `null`. -/
inductive Value where
  | str (s : String)
  | int (n : Int)
  | bool (b : Bool)
  | null
deriving DecidableEq

/-- One row of the `terminal_sessions` table (`storage/schema.py`): the
columns in `TERMINAL_SESSION_FIELDS` of `storage/terminal_crud.py`, with the
schema's column defaults as Lean default field values. -/
structure Row where
  id : String
  name : String
  user_id : Option String := none
  project_id : Option String := none
  working_dir : Option String := none
  display_order : Int := 0
  mode : String := "shell"
  session_number : Nat := 1
  is_alive : Bool := true
  created_at : Nat := 0
  last_accessed_at : Nat := 0
  last_claude_session : Option String := none
  claude_state : String := "not_started"
  pane_id : Option String := none
deriving DecidableEq

/-- The sessions table. -/
abbrev DB := List Row

/-- `Store.get_session` (`terminal_crud.py`): `SELECT ... WHERE id = %s`. -/
def getSession (db : DB) (id : String) : Option Row :=
  db.find? (fun r => r.id == id)

/-- Python truthiness of an optional string (`if project_id:`): `None` and
the empty string are falsy. -/
def truthy : Option String → Bool
  | none => false
  | some s => !s.isEmpty

/-- The columns `Store.update_session` may touch
(`allowed_fields` in `terminal_crud.py`). -/
def allowedFields : List String := ["name", "display_order", "is_alive", "working_dir"]

/-- An optional string as a SQL parameter: `NULL` or text. -/
def optVal : Option String → Value
  | some s => .str s
  | none => .null

/-- `SET name = value`. -/
def setColName (r : Row) : Value → Row
  | .str s => { r with name := s }
  | _ => r

/-- `SET display_order = value`. -/
def setColDisplayOrder (r : Row) : Value → Row
  | .int n => { r with display_order := n }
  | _ => r

/-- `SET is_alive = value`. -/
def setColIsAlive (r : Row) : Value → Row
  | .bool b => { r with is_alive := b }
  | _ => r

/-- `SET working_dir = value`. -/
def setColWorkingDir (r : Row) : Value → Row
  | .str s => { r with working_dir := some s }
  | .null => { r with working_dir := none }
  | _ => r

/-- `SET user_id = value`. -/
def setColUserId (r : Row) : Value → Row
  | .str s => { r with user_id := some s }
  | .null => { r with user_id := none }
  | _ => r

/-- `SET project_id = value`. -/
def setColProjectId (r : Row) : Value → Row
  | .str s => { r with project_id := some s }
  | .null => { r with project_id := none }
  | _ => r

/-- `SET mode = value`. -/
def setColMode (r : Row) : Value → Row
  | .str s => { r with mode := s }
  | _ => r

/-- `SET session_number = value`. -/
def setColSessionNumber (r : Row) : Value → Row
  | .int n => { r with session_number := n.toNat }
  | _ => r

/-- `SET created_at = value`. -/
def setColCreatedAt (r : Row) : Value → Row
  | .int n => { r with created_at := n.toNat }
  | _ => r

/-- `SET last_accessed_at = value`. -/
def setColLastAccessedAt (r : Row) : Value → Row
  | .int n => { r with last_accessed_at := n.toNat }
  | _ => r

/-- `SET last_claude_session = value`. -/
def setColLastClaudeSession (r : Row) : Value → Row
  | .str s => { r with last_claude_session := some s }
  | .null => { r with last_claude_session := none }
  | _ => r

/-- `SET claude_state = value`. -/
def setColClaudeState (r : Row) : Value → Row
  | .str s => { r with claude_state := s }
  | _ => r

/-- `SET pane_id = value`. -/
def setColPaneId (r : Row) : Value → Row
  | .str s => { r with pane_id := some s }
  | .null => { r with pane_id := none }
  | _ => r

/-- Effect of one SQL `SET column = value` clause on a row, for every column
of `terminal_sessions`; pairs whose value has the wrong type for the column
leave the row unchanged (the SQL layer would reject them, and no caller
produces them). -/
def applyField (r : Row) (kv : String × Value) : Row :=
  if kv.1 = "name" then setColName r kv.2
  else if kv.1 = "display_order" then setColDisplayOrder r kv.2
  else if kv.1 = "is_alive" then setColIsAlive r kv.2
  else if kv.1 = "working_dir" then setColWorkingDir r kv.2
  else if kv.1 = "user_id" then setColUserId r kv.2
  else if kv.1 = "project_id" then setColProjectId r kv.2
  else if kv.1 = "mode" then setColMode r kv.2
  else if kv.1 = "session_number" then setColSessionNumber r kv.2
  else if kv.1 = "created_at" then setColCreatedAt r kv.2
  else if kv.1 = "last_accessed_at" then setColLastAccessedAt r kv.2
  else if kv.1 = "last_claude_session" then setColLastClaudeSession r kv.2
  else if kv.1 = "claude_state" then setColClaudeState r kv.2
  else if kv.1 = "pane_id" then setColPaneId r kv.2
  else r

/-- Membership in `allowed_fields` (`terminal_crud.py`). -/
def isAllowedField (kv : String × Value) : Bool := allowedFields.contains kv.1

/-- Two rows agree on every column other than `name`, `display_order`,
`is_alive` and `working_dir` (statement vocabulary for the frame property of
`update_session`). -/
def frameEq (r r' : Row) : Prop :=
  r'.id = r.id ∧ r'.user_id = r.user_id ∧ r'.project_id = r.project_id ∧
  r'.mode = r.mode ∧ r'.session_number = r.session_number ∧
  r'.created_at = r.created_at ∧ r'.last_accessed_at = r.last_accessed_at ∧
  r'.last_claude_session = r.last_claude_session ∧
  r'.claude_state = r.claude_state ∧ r'.pane_id = r.pane_id

/-- The per-row effect of the `UPDATE ... WHERE id = %s` statement of
`update_session`. -/
def updRow (id : String) (fields : List (String × Value)) (r : Row) : Row :=
  if r.id == id then (fields.filter isAllowedField).foldl applyField r else r

/-- `Store.update_session` (`terminal_crud.py`): keep only the allowed
fields; with no remaining field, perform no write and return `get_session`;
otherwise `UPDATE ... SET clauses WHERE id = %s RETURNING fields`. -/
def updateSession (db : DB) (id : String) (fields : List (String × Value)) :
    DB × Option Row :=
  if (fields.filter isAllowedField).isEmpty then (db, getSession db id)
  else
    (db.map (updRow id fields), getSession (db.map (updRow id fields)) id)

/-- `Store.delete_session` (`terminal_crud.py`): `DELETE ... WHERE id = %s
RETURNING id`; the boolean is whether a row was deleted. -/
def storeDeleteSession (db : DB) (id : String) : DB × Bool :=
  (db.filter (fun r => !(r.id == id)), db.any (fun r => r.id == id))

/-- `Store.mark_dead` (`terminal_lifecycle.py`): `update_session(id,
is_alive=False)`. -/
def markDead (db : DB) (id : String) : DB × Option Row :=
  updateSession db id [("is_alive", .bool false)]

/-- `Store.purge_dead_sessions` (`terminal_lifecycle.py`): `DELETE WHERE
is_alive = false AND last_accessed_at < cutoff`; returns the deleted count.
The caller computes `cutoff = now - older_than_days`. -/
def purgeDeadSessions (db : DB) (cutoff : Nat) : DB × Nat :=
  (db.filter (fun r => !(!r.is_alive && decide (r.last_accessed_at < cutoff))),
   (db.filter (fun r => !r.is_alive && decide (r.last_accessed_at < cutoff))).length)

/-- The `MAX(session_number)` aggregate over a set of rows (`COALESCE(..., 0)`
gives `0` on the empty set). -/
def maxSessionNumber (rows : List Row) : Nat :=
  rows.foldl (fun m r => max m r.session_number) 0

/-- The `session_number` subquery of `Store.create_session`
(`terminal_crud.py`): `COALESCE(MAX(session_number), 0) + 1` over rows with
this `project_id` and `mode` that are alive, or `1` when `project_id` is not
truthy. -/
def storeSessionNumber (db : DB) (project_id : Option String) (mode : String) :
    Nat :=
  if truthy project_id then
    maxSessionNumber (db.filter (fun r =>
      r.project_id == project_id && r.mode == mode && r.is_alive)) + 1
  else 1

/-- The row the `INSERT` of `create_session` produces (schema defaults for
the unnamed columns). -/
def newSessionRow (db : DB) (newId name : String)
    (project_id working_dir user_id : Option String) (mode : String)
    (pane_id : Option String) (now : Nat) : Row :=
  { id := newId, name := name, user_id := user_id, project_id := project_id,
    working_dir := working_dir, mode := mode,
    session_number := storeSessionNumber db project_id mode,
    created_at := now, last_accessed_at := now, pane_id := pane_id }

/-- `Store.create_session` (`terminal_crud.py`): compute `session_number`,
then `INSERT`.  The server-generated UUID and the clock are passed in as
`newId` and `now`. -/
def storeCreateSession (db : DB) (newId name : String)
    (project_id working_dir user_id : Option String) (mode : String)
    (pane_id : Option String) (now : Nat) : DB × String :=
  (db ++ [newSessionRow db newId name project_id working_dir user_id mode
    pane_id now], newId)

/-- `Store.get_dead_session_by_project` (`terminal_project.py`):
`WHERE project_id = %s AND mode = %s AND is_alive = false ORDER BY created_at
DESC LIMIT 1` — the most recently created dead row for the pair. -/
def getDeadSessionByProject (db : DB) (project_id mode : String) : Option Row :=
  (db.filter (fun r =>
    r.project_id == some project_id && r.mode == mode && !r.is_alive)).foldl
    (fun acc r => match acc with
      | none => some r
      | some a => if a.created_at < r.created_at then some r else some a)
    none

/-- `Store.update_claude_session` (`terminal_claude.py`): `SET
last_claude_session = NULLIF(%s, '') WHERE id = %s` with parameter
`claude_session or ""`. -/
def updateClaudeSession (db : DB) (id : String) (claude_session : Option String) :
    DB :=
  let s := claude_session.getD ""
  db.map (fun r =>
    if r.id == id then
      { r with last_claude_session := if s.isEmpty then none else some s }
    else r)

/-- `Store.update_claude_state` (`terminal_claude.py`): with `expected_state`
set, `UPDATE ... WHERE id = %s AND claude_state = %s RETURNING id`
(conditional compare-and-set); otherwise `UPDATE ... WHERE id = %s RETURNING
id`.  The boolean is whether a row was updated. -/
def updateClaudeState (db : DB) (id state : String)
    (expected_state : Option String) : DB × Bool :=
  match expected_state with
  | some e =>
    (db.map (fun r =>
        if r.id == id && r.claude_state == e then { r with claude_state := state }
        else r),
     db.any (fun r => r.id == id && r.claude_state == e))
  | none =>
    (db.map (fun r => if r.id == id then { r with claude_state := state } else r),
     db.any (fun r => r.id == id))

/-! ## The tmux layer (`utils/tmux.py`)

The tmux server state is the list of names of existing sessions.  A tmux
subprocess call only matters here through the session set it leaves behind,
plus whether `new-session` succeeds, which is the boolean oracle `muxOk`. -/

/-- `get_tmux_session_name` (`utils/tmux.py`). -/
def tmuxSessionName (session_id : String) : String := "summitflow-" ++ session_id

/-- The tmux server: the set of existing session names. -/
abbrev Tmux := List String

/-- `tmux_session_exists` (`utils/tmux.py`): `tmux has-session -t
summitflow-<id>`. -/
def tmuxSessionExists (tmux : Tmux) (session_id : String) : Bool :=
  tmux.contains (tmuxSessionName session_id)

/-- `create_tmux_session` (`utils/tmux.py`): if the session already exists,
re-apply options and return; else run `tmux new-session`, which adds the
session when it succeeds (`muxOk = true`) and raises `TmuxError` otherwise.
`working_dir` only affects the child shell, not this state. -/
def createTmuxSession (tmux : Tmux) (muxOk : Bool) (session_id : String) :
    Except Unit Tmux :=
  if tmuxSessionExists tmux session_id then .ok tmux
  else if muxOk then .ok (tmux ++ [tmuxSessionName session_id])
  else .error ()

/-- `_kill_tmux_session` (`services/lifecycle_core.py`) with
`ignore_missing=True`: `tmux kill-session -t summitflow-<id>`; a missing
session is reported as `False`, never an error. -/
def killTmuxSession (tmux : Tmux) (session_id : String) : Tmux × Bool :=
  (tmux.filter (fun n => !(n == tmuxSessionName session_id)),
   tmux.contains (tmuxSessionName session_id))

/-! ## LifecycleCore (`services/lifecycle_core.py`) -/

deriving instance DecidableEq for Except

/-- Outcome of a lifecycle operation that may raise `TmuxError`, together
with the Store and tmux state it leaves behind.  Python propagates the
exception but keeps the side effects already performed. -/
structure LifecycleResult (α : Type) where
  outcome : Except Unit α
  db : DB
  tmux : Tmux
deriving DecidableEq

/-- `_resurrect_dead_session` (`lifecycle_core.py`): update the dead row's
`name`, `working_dir` (even to `NULL`) and `is_alive=True`, then create the
tmux session; on `TmuxError` roll back with `mark_dead` and re-raise. -/
def resurrectDeadSession (db : DB) (tmux : Tmux) (muxOk : Bool)
    (dead_session : Row) (name : String) (working_dir : Option String) :
    LifecycleResult String :=
  let db₁ := (updateSession db dead_session.id
    [("name", .str name), ("working_dir", optVal working_dir),
     ("is_alive", .bool true)]).1
  match createTmuxSession tmux muxOk dead_session.id with
  | .ok tmux' => ⟨.ok dead_session.id, db₁, tmux'⟩
  | .error _ => ⟨.error (), (markDead db₁ dead_session.id).1, tmux⟩

/-- `LifecycleCore.create_session` (`lifecycle_core.py`): when `project_id`
is truthy and a dead row exists for `(project_id, mode)`, resurrect it;
otherwise insert a new Store row, then create the tmux session, rolling the
insert back with `delete_session` on `TmuxError` and re-raising. -/
def lifecycleCreateSession (db : DB) (tmux : Tmux) (muxOk : Bool)
    (newId name : String) (project_id working_dir user_id : Option String)
    (mode : String) (now : Nat) : LifecycleResult String :=
  let fresh : LifecycleResult String :=
    let (db₁, session_id) :=
      storeCreateSession db newId name project_id working_dir user_id mode none now
    match createTmuxSession tmux muxOk session_id with
    | .ok tmux' => ⟨.ok session_id, db₁, tmux'⟩
    | .error _ => ⟨.error (), (storeDeleteSession db₁ session_id).1, tmux⟩
  match project_id with
  | some p =>
    if p.isEmpty then fresh
    else
      match getDeadSessionByProject db p mode with
      | some dead => resurrectDeadSession db tmux muxOk dead name working_dir
      | none => fresh
  | none => fresh

/-- `LifecycleCore.delete_session` (`lifecycle_core.py`): best-effort tmux
kill (missing ignored), then Store delete; returns `True` unconditionally. -/
def lifecycleDeleteSession (db : DB) (tmux : Tmux) (session_id : String) :
    Bool × DB × Tmux :=
  let (tmux', _) := killTmuxSession tmux session_id
  let (db', _) := storeDeleteSession db session_id
  (true, db', tmux')

/-- `LifecycleCore.ensure_session_alive` (`lifecycle_core.py`): no row →
`False`; row and tmux session → flip `is_alive` to true if needed, `True`;
row without tmux session → recreate tmux, `is_alive=True` and `True` on
success, `mark_dead` and `False` on `TmuxError`. -/
def ensureSessionAlive (db : DB) (tmux : Tmux) (muxOk : Bool)
    (session_id : String) : Bool × DB × Tmux :=
  match getSession db session_id with
  | none => (false, db, tmux)
  | some s =>
    if tmuxSessionExists tmux session_id then
      if !s.is_alive then
        (true, (updateSession db session_id [("is_alive", .bool true)]).1, tmux)
      else (true, db, tmux)
    else
      match createTmuxSession tmux muxOk session_id with
      | .ok tmux' =>
        (true, (updateSession db session_id [("is_alive", .bool true)]).1, tmux')
      | .error _ => (false, (markDead db session_id).1, tmux)

/-! ## LifecycleBatch (`services/lifecycle_batch.py`) -/

/-- A Python runtime exception: calling a function with a keyword argument
its signature does not declare. -/
inductive PyExc where
  | typeError
deriving DecidableEq

/-- `LifecycleBatch.reset_session` (`lifecycle_batch.py`): return `None`
when the row is missing; otherwise capture the row's fields, call
`delete_session(id)`, then call `create_session(name=..., project_id=...,
working_dir=..., user_id=..., mode=..., pane_id=pane_id)`.
`lifecycle_core.create_session`'s signature is
`(name, project_id=None, working_dir=None, user_id=None, mode="shell")` —
it has no `pane_id` parameter — so Python raises
`TypeError: create_session() got an unexpected keyword argument 'pane_id'`
at the call, before the function body runs and after the old session was
already deleted. -/
def batchResetSession (db : DB) (tmux : Tmux) (session_id : String) :
    LifecycleResult (Except PyExc (Option String)) :=
  match getSession db session_id with
  | none => ⟨.ok (.ok none), db, tmux⟩
  | some _ =>
    let (_, db₁, tmux₁) := lifecycleDeleteSession db tmux session_id
    ⟨.ok (.error .typeError), db₁, tmux₁⟩

/-! ## Pane creation (`storage/pane_crud.py`) -/

/-- One row of the `terminal_panes` table (`storage/schema.py`). -/
structure Pane where
  id : String
  pane_type : String
  project_id : Option String := none
  pane_order : Int := 0
  pane_name : String
  active_mode : String := "shell"
  created_at : Nat := 0
deriving DecidableEq

/-- The `session_number` subquery of `create_pane_with_sessions`
(`pane_crud.py`): `COALESCE(MAX(session_number), 0) + 1` over rows with this
`project_id` that are alive — with no `mode` filter — or `1` when
`project_id` is not truthy. -/
def paneSessionNumber (db : DB) (project_id : Option String) : Nat :=
  if truthy project_id then
    maxSessionNumber (db.filter (fun r =>
      r.project_id == project_id && r.is_alive)) + 1
  else 1

/-- `create_pane_with_sessions` (`pane_crud.py`): validate the
type/project combination, auto-assign `pane_order` as `MAX+1` (over `-1`),
insert the pane, compute one `session_number` for the project, insert the
shell session, and for `project` panes also insert the claude session with
the same `session_number`.  The generated UUIDs and the clock are passed in. -/
def createPaneWithSessions (db : DB) (panes : List Pane)
    (newPaneId shellId claudeId : String) (pane_type pane_name : String)
    (project_id working_dir : Option String) (pane_order : Option Int)
    (now : Nat) : Except String (DB × List Pane × Pane × List Row) :=
  if pane_type == "project" && !truthy project_id then
    .error "project_id required for project panes"
  else if pane_type == "adhoc" && truthy project_id then
    .error "project_id must be None for adhoc panes"
  else
    let order := pane_order.getD
      (panes.foldl (fun m q => max m q.pane_order) (-1) + 1)
    let pane : Pane :=
      { id := newPaneId, pane_type := pane_type, project_id := project_id,
        pane_order := order, pane_name := pane_name, created_at := now }
    let session_number := paneSessionNumber db project_id
    let session_name :=
      if truthy project_id then "Project: " ++ project_id.getD "" else pane_name
    let shell : Row :=
      { id := shellId, name := session_name, project_id := project_id,
        working_dir := working_dir, mode := "shell",
        session_number := session_number, created_at := now,
        last_accessed_at := now, pane_id := some newPaneId }
    if pane_type == "project" then
      let claude : Row :=
        { shell with id := claudeId, mode := "claude" }
      .ok (db ++ [shell, claude], panes ++ [pane], pane, [shell, claude])
    else
      .ok (db ++ [shell], panes ++ [pane], pane, [shell])

/-- The `session_number` rule as the specification states it, for comparison
with the code: `COALESCE(MAX(session_number), 0) + 1` over the rows with the
same `project_id` and the same `mode` that are alive, `1` when `project_id`
is null. -/
def specSessionNumber (db : DB) (project_id : Option String) (mode : String) :
    Nat :=
  match project_id with
  | some _ =>
    maxSessionNumber (db.filter (fun r =>
      r.project_id == project_id && r.mode == mode && r.is_alive)) + 1
  | none => 1

/-! ## Session listing and reconciliation
(`utils/tmux.py`, `services/lifecycle_reconcile.py`) -/

/-- Python `str.replace(pat, rep)` on character lists, with explicit fuel so
that the recursion is structural (the wrapper passes the string's length,
which always suffices): leftmost-first, non-overlapping.  The empty pattern
(never used here) leaves the string unchanged. -/
def replaceSubFuel (pat rep : List Char) : Nat → List Char → List Char
  | _, [] => []
  | 0, s => s
  | fuel + 1, c :: rest =>
    if pat ≠ [] ∧ pat.isPrefixOf (c :: rest) then
      rep ++ replaceSubFuel pat rep fuel ((c :: rest).drop pat.length)
    else c :: replaceSubFuel pat rep fuel rest

/-- Python `str.replace(pat, rep)` on character lists. -/
def replaceSub (pat rep : List Char) (s : List Char) : List Char :=
  replaceSubFuel pat rep s.length s

/-- Whether `pat` occurs as a contiguous run inside `s`. -/
def hasSub (pat : List Char) : List Char → Bool
  | [] => pat.isEmpty
  | c :: rest => pat.isPrefixOf (c :: rest) || hasSub pat rest

/-- The service prefix `"summitflow-"` as characters. -/
def svcPre : List Char := "summitflow-".toList

/-- `line.replace("summitflow-", "")` of `list_tmux_sessions`
(`utils/tmux.py`). -/
def stripSvc (n : String) : String := String.mk (replaceSub svcPre [] n.toList)

/-- `list_tmux_sessions` (`utils/tmux.py`): the lines of
`tmux list-sessions -F '#{session_name}'` that start with the service
prefix, with every occurrence of the prefix removed (the Python set is kept
as a list; only membership is ever used). -/
def listTmuxSessionIds (tmux : Tmux) : List String :=
  (tmux.filter (fun n => svcPre.isPrefixOf n.toList)).map stripSvc

/-- One iteration of the row loop in `reconcile_on_startup`
(`lifecycle_reconcile.py`), folding over the snapshot of the Store:
row in tmux but marked dead → set `is_alive=true`; row missing from tmux
but marked alive → `mark_dead`. -/
def reconcileSyncStep (tmuxIds : List String) (acc : DB) (s : Row) : DB :=
  if tmuxIds.contains s.id then
    if !s.is_alive then (updateSession acc s.id [("is_alive", .bool true)]).1
    else acc
  else
    if s.is_alive then (markDead acc s.id).1 else acc

/-- `_kill_orphan_tmux_sessions` (`lifecycle_reconcile.py`): re-list the
tmux sessions, and kill each whose stripped id has no Store row. -/
def killOrphanTmuxSessions (tmux : Tmux) (db_session_ids : List String) : Tmux :=
  let orphans := (listTmuxSessionIds tmux).filter
    (fun i => !db_session_ids.contains i)
  orphans.foldl (fun t i => (killTmuxSession t i).1) tmux

/-- `reconcile_on_startup` (`lifecycle_reconcile.py`): sync every Store row
with tmux, purge dead rows not accessed for `purge_after_days` days (the
clock `now` counts seconds), then kill orphan tmux sessions against the
post-purge id set. -/
def reconcileOnStartup (db : DB) (tmux : Tmux) (now : Nat)
    (purge_after_days : Nat := 7) : DB × Tmux :=
  let tmuxIds := listTmuxSessionIds tmux
  let db₁ := db.foldl (reconcileSyncStep tmuxIds) db
  let db₂ := (purgeDeadSessions db₁ (now - purge_after_days * 86400)).1
  let remaining := db₂.map Row.id
  (db₂, killOrphanTmuxSessions tmux remaining)

/-! ## Session-switch hook -/

/-- `validate_session_name` (`utils/tmux.py`): character of the class
`[a-zA-Z0-9_\-:]`. -/
def validSessionChar (c : Char) : Bool :=
  (c.isAlpha || c.isDigit) || c == '_' || c == '-' || c == ':'

/-- `validate_session_name` (`utils/tmux.py`): the regex
`^[a-zA-Z0-9_\-:]+$` and length below 256. -/
def validateSessionName (name : String) : Bool :=
  !name.toList.isEmpty && name.toList.all validSessionChar &&
    decide (name.toList.length < 256)

/-- Response status of the session-switch hook endpoint. -/
inductive HookStatus where
  | stored
  | cleared
  | ignored
  | rejected
deriving DecidableEq

/-- Modelled from the spec: the handler of the internal
`GET /api/internal/session-switch` endpoint is missing from `src/` — only
the tmux hook registration in `main.py` that invokes it and the Store
operation `update_claude_session` are present — so this follows §4.7 of the
specification: reject a non-loopback peer without writing; validate both
names with `validate_session_name`, an empty `from` being allowed (initial
attach); ignore when `from` is not a service-prefixed base session; derive
the terminal id from `from` by stripping the prefix; when `to` is itself a
service-prefixed base session, clear `last_target_session`
(`update_claude_session(id, None)`), otherwise persist
`last_target_session = to`. -/
def sessionSwitchHook (db : DB) (peer_is_loopback : Bool)
    (fromName toName : String) : DB × HookStatus :=
  if !peer_is_loopback then (db, .rejected)
  else if !(fromName.isEmpty || validateSessionName fromName) then (db, .rejected)
  else if !validateSessionName toName then (db, .rejected)
  else if !svcPre.isPrefixOf fromName.toList then (db, .ignored)
  else
    let terminal_id := String.mk (fromName.toList.drop svcPre.length)
    if svcPre.isPrefixOf toName.toList then
      (updateClaudeSession db terminal_id none, .cleared)
    else
      (updateClaudeSession db terminal_id (some toName), .stored)

/-! ## PTY reader UTF-8 handling (`services/pty_manager.py`)

`read_pty_output` decodes each PTY read strictly; an error near the end of
the buffer (`e.start >= len(output) - 3`) means an incomplete multi-byte
sequence, whose trailing bytes are stashed and prepended to the next read.
The byte-level UTF-8 codec below follows CPython's: `utf8DecodeStrict`
is `bytes.decode("utf-8")` (code points plus `UnicodeDecodeError.start`),
`utf8DecodeReplace` is `bytes.decode("utf-8", errors="replace")`. -/

/-- Result of decoding one UTF-8 sequence at the head of a byte list: a code
point and the number of bytes consumed, or an error whose `skip` is the
length of the maximal valid subpart (what `errors="replace"` turns into a
single U+FFFD). -/
inductive Utf8Step where
  | ok (cp : Nat) (consumed : Nat)
  | err (skip : Nat)
deriving DecidableEq

/-- A UTF-8 continuation byte: `0x80`–`0xBF`. -/
def isCont (b : Nat) : Bool := 0x80 ≤ b && b ≤ 0xBF

/-- Valid range of the first continuation byte, which depends on the leading
byte (this excludes overlong forms, surrogates, and code points above
U+10FFFF). -/
def cont1ok (b0 b1 : Nat) : Bool :=
  if b0 == 0xE0 then 0xA0 ≤ b1 && b1 ≤ 0xBF
  else if b0 == 0xED then 0x80 ≤ b1 && b1 ≤ 0x9F
  else if b0 == 0xF0 then 0x90 ≤ b1 && b1 ≤ 0xBF
  else if b0 == 0xF4 then 0x80 ≤ b1 && b1 ≤ 0x8F
  else isCont b1

/-- Decode one UTF-8 sequence at the head of the byte list. -/
def utf8DecodeOne (bs : List Nat) : Utf8Step :=
  match bs with
  | [] => .err 1
  | b0 :: rest =>
    if b0 < 0x80 then .ok b0 1
    else if b0 < 0xC2 then .err 1
    else if b0 ≤ 0xDF then
      match rest with
      | [] => .err 1
      | b1 :: _ =>
        if isCont b1 then .ok ((b0 - 0xC0) * 0x40 + (b1 - 0x80)) 2 else .err 1
    else if b0 ≤ 0xEF then
      match rest with
      | [] => .err 1
      | b1 :: rest1 =>
        if cont1ok b0 b1 then
          match rest1 with
          | [] => .err 2
          | b2 :: _ =>
            if isCont b2 then
              .ok ((b0 - 0xE0) * 0x1000 + (b1 - 0x80) * 0x40 + (b2 - 0x80)) 3
            else .err 2
        else .err 1
    else if b0 ≤ 0xF4 then
      match rest with
      | [] => .err 1
      | b1 :: rest1 =>
        if cont1ok b0 b1 then
          match rest1 with
          | [] => .err 2
          | b2 :: rest2 =>
            if isCont b2 then
              match rest2 with
              | [] => .err 3
              | b3 :: _ =>
                if isCont b3 then
                  .ok ((b0 - 0xF0) * 0x40000 + (b1 - 0x80) * 0x1000 +
                       (b2 - 0x80) * 0x40 + (b3 - 0x80)) 4
                else .err 3
            else .err 2
        else .err 1
    else .err 1

/-- The decoder consumes at least one byte on success (termination measure
of the decode loops). -/
def utf8DecodeOne_consumed_pos :
    ∀ (bs : List Nat) (cp k : Nat), utf8DecodeOne bs = .ok cp k → 1 ≤ k := by
  intro bs cp k hh
  rcases bs with _ | ⟨b0, _ | ⟨b1, _ | ⟨b2, _ | ⟨b3, rest⟩⟩⟩⟩ <;>
    simp only [utf8DecodeOne] at hh <;>
    (try split_ifs at hh) <;>
    first
      | exact Utf8Step.noConfusion hh
      | (injection hh with h1 h2; omega)

/-- The decoder skips at least one byte on error (termination measure of
the decode loops). -/
def utf8DecodeOne_skip_pos :
    ∀ (b0 : Nat) (tl : List Nat) (k : Nat),
      utf8DecodeOne (b0 :: tl) = .err k → 1 ≤ k := by
  intro b0 tl k hh
  rcases tl with _ | ⟨b1, _ | ⟨b2, _ | ⟨b3, rest⟩⟩⟩ <;>
    simp only [utf8DecodeOne] at hh <;>
    (try split_ifs at hh) <;>
    first
      | exact Utf8Step.noConfusion hh
      | (injection hh with h1; omega)

/-- Strict UTF-8 decoding with explicit fuel, so that the recursion is
structural (the wrappers pass the byte list's length, which always suffices
because each step consumes at least one byte). -/
def utf8DecodeStrictFuel : Nat → List Nat → List Nat × Option Nat
  | _, [] => ([], none)
  | 0, _ => ([], none)
  | fuel + 1, b :: tl =>
    match utf8DecodeOne (b :: tl) with
    | .ok cp k =>
      let r := utf8DecodeStrictFuel fuel ((b :: tl).drop k)
      (cp :: r.1, r.2.map (· + k))
    | .err _ => ([], some 0)

/-- Strict UTF-8 decoding (`bytes.decode("utf-8")`): the code points decoded
before the first error, and the error's start index
(`UnicodeDecodeError.start`) when there is one. -/
def utf8DecodeStrict (bs : List Nat) : List Nat × Option Nat :=
  utf8DecodeStrictFuel bs.length bs

/-- Replacing UTF-8 decoding with explicit fuel. -/
def utf8DecodeReplaceFuel : Nat → List Nat → List Nat
  | _, [] => []
  | 0, _ => []
  | fuel + 1, b :: tl =>
    match utf8DecodeOne (b :: tl) with
    | .ok cp k => cp :: utf8DecodeReplaceFuel fuel ((b :: tl).drop k)
    | .err k => 0xFFFD :: utf8DecodeReplaceFuel fuel ((b :: tl).drop k)

/-- `bytes.decode("utf-8", errors="replace")`: each maximal invalid subpart
becomes a single U+FFFD. -/
def utf8DecodeReplace (bs : List Nat) : List Nat :=
  utf8DecodeReplaceFuel bs.length bs

/-- The constant `MAX_UTF8_BUFFER` of `read_pty_output`. -/
def MAX_UTF8_BUFFER : Nat := 4

/-- One iteration of `read_pty_output`'s decoding (`pty_manager.py`):
prepend the stashed continuation buffer, decode strictly; on an error
within the last three bytes (`e.start >= len(output) - 3`) stash the tail
(clearing it if it exceeds `MAX_UTF8_BUFFER`) and replace-decode the front;
on an earlier error replace-decode everything.  Returns the decoded text
(as code points) and the new continuation buffer. -/
def decodeChunk (utf8_buffer chunk : List Nat) : List Nat × List Nat :=
  let output := utf8_buffer ++ chunk
  match utf8DecodeStrict output with
  | (cps, none) => (cps, [])
  | (_, some s) =>
    if output.length ≤ s + 3 then
      let buf := output.drop s
      if MAX_UTF8_BUFFER < buf.length then (utf8DecodeReplace (output.take s), [])
      else (utf8DecodeReplace (output.take s), buf)
    else (utf8DecodeReplace output, [])

/-- The text emitted by the reader over a list of PTY reads: the
concatenation, in order, of each iteration's decoded text.  The 16 ms/4 KiB
batch buffer only concatenates and re-chunks this text before sending, so
the concatenation of the sent frames equals this concatenation. -/
def readerEmit : List Nat → List (List Nat) → List Nat
  | _, [] => []
  | buf, c :: cs =>
    let p := decodeChunk buf c
    p.1 ++ readerEmit p.2 cs

/-- The `utf8_buffer` state left after the reader has processed a list of
PTY reads. -/
def readerFinalBuf : List Nat → List (List Nat) → List Nat
  | buf, [] => buf
  | buf, c :: cs => readerFinalBuf (decodeChunk buf c).2 cs

/-! ## Store lemmas -/

/-- `applyField` never changes the primary key. -/
theorem applyField_id (r : Row) (kv : String × Value) :
    (applyField r kv).id = r.id := by
  rcases kv with ⟨k, v⟩
  unfold applyField
  dsimp only
  by_cases h1 : k = "name"
  · rw [if_pos h1]; cases v <;> rfl
  rw [if_neg h1]
  by_cases h2 : k = "display_order"
  · rw [if_pos h2]; cases v <;> rfl
  rw [if_neg h2]
  by_cases h3 : k = "is_alive"
  · rw [if_pos h3]; cases v <;> rfl
  rw [if_neg h3]
  by_cases h4 : k = "working_dir"
  · rw [if_pos h4]; cases v <;> rfl
  rw [if_neg h4]
  by_cases h5 : k = "user_id"
  · rw [if_pos h5]; cases v <;> rfl
  rw [if_neg h5]
  by_cases h6 : k = "project_id"
  · rw [if_pos h6]; cases v <;> rfl
  rw [if_neg h6]
  by_cases h7 : k = "mode"
  · rw [if_pos h7]; cases v <;> rfl
  rw [if_neg h7]
  by_cases h8 : k = "session_number"
  · rw [if_pos h8]; cases v <;> rfl
  rw [if_neg h8]
  by_cases h9 : k = "created_at"
  · rw [if_pos h9]; cases v <;> rfl
  rw [if_neg h9]
  by_cases h10 : k = "last_accessed_at"
  · rw [if_pos h10]; cases v <;> rfl
  rw [if_neg h10]
  by_cases h11 : k = "last_claude_session"
  · rw [if_pos h11]; cases v <;> rfl
  rw [if_neg h11]
  by_cases h12 : k = "claude_state"
  · rw [if_pos h12]; cases v <;> rfl
  rw [if_neg h12]
  by_cases h13 : k = "pane_id"
  · rw [if_pos h13]; cases v <;> rfl
  rw [if_neg h13]

/-- A clause for one of the four allowed columns leaves every other column
of the row unchanged. -/
theorem applyField_allowed_frame (r : Row) (kv : String × Value)
    (h : isAllowedField kv = true) : frameEq r (applyField r kv) := by
  rcases kv with ⟨k, v⟩
  have hmem : k = "name" ∨ k = "display_order" ∨ k = "is_alive" ∨
      k = "working_dir" := by
    simpa [isAllowedField, allowedFields] using h
  rcases hmem with rfl | rfl | rfl | rfl <;>
    (cases v <;>
      exact ⟨rfl, rfl, rfl, rfl, rfl, rfl, rfl, rfl, rfl, rfl⟩)

/-- A run of `SET` clauses never changes the primary key. -/
theorem applyFields_id (upd : List (String × Value)) (r : Row) :
    (upd.foldl applyField r).id = r.id := by
  induction upd generalizing r with
  | nil => rfl
  | cons kv tl ih => rw [List.foldl_cons, ih, applyField_id]

/-- The per-row update of `update_session` never changes the primary key. -/
theorem updRow_id (id : String) (fields : List (String × Value)) (r : Row) :
    (updRow id fields r).id = r.id := by
  unfold updRow
  split_ifs <;> simp [applyFields_id]

/-- `find?` by id commutes with mapping an id-preserving function. -/
theorem find?_map_id_pres {g : Row → Row} (hg : ∀ r, (g r).id = r.id)
    (db : DB) (id : String) :
    (db.map g).find? (fun r => r.id == id)
      = (db.find? (fun r => r.id == id)).map g := by
  induction db with
  | nil => rfl
  | cons r tl ih =>
    simp only [List.map_cons, List.find?, hg]
    cases hcond : (r.id == id) <;> simp [hcond, ih]

/-- What a row looks up to after `update_session`: the old row with the
allowed `SET` clauses applied. -/
theorem getSession_updateSession (db : DB) (id : String)
    (fields : List (String × Value)) :
    getSession (updateSession db id fields).1 id
      = (getSession db id).map (fun r =>
          (fields.filter isAllowedField).foldl applyField r) := by
  unfold updateSession
  by_cases h : ((fields.filter isAllowedField).isEmpty : Prop)
  · have hnil : fields.filter isAllowedField = [] := List.isEmpty_iff.mp h
    rw [if_pos h, hnil]
    simp
  · rw [if_neg h]
    unfold getSession
    rw [find?_map_id_pres (updRow_id id fields)]
    cases hfind : List.find? (fun r => r.id == id) db with
    | none => rfl
    | some r0 =>
      have hp := List.find?_some hfind
      unfold updRow
      simp only [Option.map_some', hp, if_true]

/-- `update_session` does not affect the row looked up under another id. -/
theorem getSession_updateSession_ne (db : DB) (id j : String) (hne : j ≠ id)
    (fields : List (String × Value)) :
    getSession (updateSession db id fields).1 j = getSession db j := by
  unfold updateSession
  by_cases h : ((fields.filter isAllowedField).isEmpty : Prop)
  · rw [if_pos h]
  · rw [if_neg h]
    unfold getSession
    rw [find?_map_id_pres (updRow_id id fields)]
    cases hfind : List.find? (fun r => r.id == j) db with
    | none => rfl
    | some r0 =>
      have hp := List.find?_some hfind
      have hne' : ¬(r0.id == id) = true := by
        simp only [beq_iff_eq] at hp ⊢
        rw [hp]
        exact hne
      unfold updRow
      simp only [beq_iff_eq] at hne'
      simp [hne']

/-- A successful lookup returns a member carrying the requested id. -/
theorem getSession_eq_some {db : DB} {id : String} {r : Row}
    (h : getSession db id = some r) : r ∈ db ∧ r.id = id := by
  refine ⟨List.mem_of_find?_eq_some h, ?_⟩
  have := List.find?_some h
  simpa using this

/-- With unique ids, looking up a member's id finds that member. -/
theorem getSession_of_mem {db : DB} {r : Row} (hnd : (db.map Row.id).Nodup)
    (hm : r ∈ db) : getSession db r.id = some r := by
  induction db with
  | nil => cases hm
  | cons a tl ih =>
    rcases List.mem_cons.mp hm with rfl | hm'
    · unfold getSession
      rw [List.find?_cons_of_pos]
      simp
    · have hnd' : (tl.map Row.id).Nodup := (List.nodup_cons.mp hnd).2
      have hna : a.id ∉ tl.map Row.id := (List.nodup_cons.mp hnd).1
      have : a.id ≠ r.id := fun hcontra => hna (hcontra ▸ List.mem_map_of_mem Row.id hm')
      unfold getSession
      rw [List.find?_cons_of_neg]
      · exact ih hnd' hm'
      · simp [this]

/-- With unique ids, two members carrying the same id are the same row. -/
theorem mem_id_unique {db : DB} (hnd : (db.map Row.id).Nodup) {x y : Row}
    (hx : x ∈ db) (hy : y ∈ db) (hxy : x.id = y.id) : x = y := by
  have h1 := getSession_of_mem hnd hx
  have h2 := getSession_of_mem hnd hy
  rw [hxy, h2] at h1
  exact (Option.some.injEq ..).mp h1.symm

/-- Mapping a function that fixes every member is the identity. -/
theorem map_id_of_fix {g : Row → Row} :
    ∀ (db : DB), (∀ r ∈ db, g r = r) → db.map g = db := by
  intro db hfix
  induction db with
  | nil => rfl
  | cons a tl ih =>
    rw [List.map_cons, hfix a (List.mem_cons_self a tl),
      ih (fun r hr => hfix r (List.mem_cons_of_mem a hr))]

/-- `frameEq` is reflexive. -/
theorem frameEq_refl (r : Row) : frameEq r r :=
  ⟨rfl, rfl, rfl, rfl, rfl, rfl, rfl, rfl, rfl, rfl⟩

/-- `frameEq` is transitive. -/
theorem frameEq_trans {r₁ r₂ r₃ : Row} (h₁ : frameEq r₁ r₂) (h₂ : frameEq r₂ r₃) :
    frameEq r₁ r₃ := by
  obtain ⟨a1, a2, a3, a4, a5, a6, a7, a8, a9, a10⟩ := h₁
  obtain ⟨b1, b2, b3, b4, b5, b6, b7, b8, b9, b10⟩ := h₂
  exact ⟨b1.trans a1, b2.trans a2, b3.trans a3, b4.trans a4, b5.trans a5,
    b6.trans a6, b7.trans a7, b8.trans a8, b9.trans a9, b10.trans a10⟩

/-- A run of allowed `SET` clauses leaves every non-allowed column
unchanged. -/
theorem applyFields_allowed_frame (upd : List (String × Value))
    (hall : ∀ kv ∈ upd, isAllowedField kv = true) (r : Row) :
    frameEq r (upd.foldl applyField r) := by
  induction upd generalizing r with
  | nil => exact frameEq_refl r
  | cons kv tl ih =>
    rw [List.foldl_cons]
    exact frameEq_trans
      (applyField_allowed_frame r kv (hall kv (List.mem_cons_self kv tl)))
      (ih (fun x hx => hall x (List.mem_cons_of_mem kv hx)) (applyField r kv))

/-- The per-row update of `update_session` changes no column outside the
allowed four. -/
theorem updRow_frame (id : String) (fields : List (String × Value)) (r : Row) :
    frameEq r (updRow id fields r) := by
  unfold updRow
  by_cases hr : (r.id == id) = true
  · rw [if_pos hr]
    exact applyFields_allowed_frame _
      (fun kv hkv => (List.mem_filter.mp hkv).2) r
  · rw [if_neg hr]
    exact frameEq_refl r

/-! ## C10 — frame property of `Store.update_session` -/

/-- C10: `Store.update_session` can change only `name`, `display_order`,
`is_alive` and `working_dir`; every other column of every row keeps its
value, and a call with no allowed field performs no write and returns the
row via `get_session`. -/
theorem update_session_frame_spec (db : DB) (id : String)
    (fields : List (String × Value)) :
    List.Forall₂ frameEq db (updateSession db id fields).1 ∧
    (fields.filter isAllowedField = [] →
      (updateSession db id fields).1 = db ∧
      (updateSession db id fields).2 = getSession db id) := by
  constructor
  · unfold updateSession
    by_cases h : ((fields.filter isAllowedField).isEmpty : Prop)
    · rw [if_pos h]
      exact List.forall₂_same.mpr (fun r _ => frameEq_refl r)
    · rw [if_neg h]
      dsimp only
      rw [List.forall₂_map_right_iff]
      exact List.forall₂_same.mpr (fun r _ => updRow_frame id fields r)
  · intro hnil
    unfold updateSession
    rw [if_pos (by rw [hnil]; rfl)]
    exact ⟨rfl, rfl⟩

/-- C10 witness: on a concrete row, updating a non-allowed field (`mode`)
leaves the database untouched and returns the stored row. -/
theorem update_session_frame_spec_witness :
    (updateSession [{ id := "s1", name := "n" }] "s1" [("mode", .str "claude")]).1
        = [{ id := "s1", name := "n" }] ∧
    (updateSession [{ id := "s1", name := "n" }] "s1" [("mode", .str "claude")]).2
        = getSession [{ id := "s1", name := "n" }] "s1" :=
  (update_session_frame_spec [{ id := "s1", name := "n" }] "s1"
    [("mode", .str "claude")]).2 (by decide)

/-! ## C7 — idempotent delete -/

/-- C7: `LifecycleCore.delete_session` returns `True` unconditionally —
whether or not the Store row or the tmux session exists — and afterwards
neither the Store row nor the tmux session `summitflow-<id>` exists. -/
theorem delete_session_idempotent_spec (db : DB) (tmux : Tmux) (id : String) :
    (lifecycleDeleteSession db tmux id).1 = true ∧
    getSession (lifecycleDeleteSession db tmux id).2.1 id = none ∧
    (lifecycleDeleteSession db tmux id).2.2.contains (tmuxSessionName id)
      = false := by
  refine ⟨rfl, ?_, ?_⟩
  · apply List.find?_eq_none.mpr
    intro r hr
    have hm := List.mem_filter.mp hr
    simpa using hm.2
  · apply Bool.eq_false_iff.mpr
    intro hcon
    obtain ⟨a', ha', hbeq⟩ := List.contains_iff_exists_mem_beq.mp hcon
    have hm := (List.mem_filter.mp ha').2
    simp only [beq_iff_eq] at hbeq
    simp [← hbeq] at hm

/-! ## C6 — conditional auxiliary-state update -/

/-- C6: with `expected_state` supplied, `update_claude_state` changes the
row's state to the new value exactly when the current state equals the
expected one, and returns `True` exactly when the update applied; without
`expected_state` the update is unconditional and returns `True` exactly
when the row exists. -/
theorem update_claude_state_spec (db : DB) (id new e : String)
    (hnd : (db.map Row.id).Nodup) :
    ((updateClaudeState db id new (some e)).2 = true ↔
      ∃ r, getSession db id = some r ∧ r.claude_state = e) ∧
    (∀ r, getSession db id = some r →
      getSession (updateClaudeState db id new (some e)).1 id =
        some (if r.claude_state = e then { r with claude_state := new } else r)) ∧
    (∀ r, getSession db id = some r → r.claude_state ≠ e →
      (updateClaudeState db id new (some e)).1 = db) ∧
    (getSession db id = none → (updateClaudeState db id new (some e)).1 = db) ∧
    ((updateClaudeState db id new none).2 = true ↔
      ∃ r, getSession db id = some r) ∧
    (∀ r, getSession db id = some r →
      getSession (updateClaudeState db id new none).1 id =
        some { r with claude_state := new }) := by
  have hg1 : ∀ r : Row,
      ((fun r => if r.id == id && r.claude_state == e
          then { r with claude_state := new } else r) r).id = r.id := by
    intro r
    dsimp only
    by_cases hc : (r.id == id && r.claude_state == e) = true
    · rw [if_pos hc]
    · rw [if_neg hc]
  have hg2 : ∀ r : Row,
      ((fun r => if r.id == id then { r with claude_state := new } else r) r).id
        = r.id := by
    intro r
    dsimp only
    by_cases hc : (r.id == id) = true
    · rw [if_pos hc]
    · rw [if_neg hc]
  refine ⟨?_, ?_, ?_, ?_, ?_, ?_⟩
  · constructor
    · intro hany
      obtain ⟨x, hx, hpx⟩ := List.any_eq_true.mp hany
      simp only [Bool.and_eq_true, beq_iff_eq] at hpx
      refine ⟨x, ?_, hpx.2⟩
      rw [← hpx.1]
      exact getSession_of_mem hnd hx
    · rintro ⟨r, hr, hstate⟩
      obtain ⟨hm, hid⟩ := getSession_eq_some hr
      exact List.any_eq_true.mpr ⟨r, hm, by simp [hid, hstate]⟩
  · intro r hr
    obtain ⟨hm, hid⟩ := getSession_eq_some hr
    unfold updateClaudeState getSession
    dsimp only
    rw [find?_map_id_pres hg1]
    unfold getSession at hr
    rw [hr]
    simp only [Option.map_some', hid, beq_self_eq_true, Bool.true_and]
    by_cases hc : r.claude_state = e
    · simp [hc]
    · simp [hc]
  · intro r hr hne
    unfold updateClaudeState
    dsimp only
    apply map_id_of_fix
    intro x hx
    by_cases hc : (x.id == id && x.claude_state == e) = true
    · exfalso
      simp only [Bool.and_eq_true, beq_iff_eq] at hc
      obtain ⟨hm, hid⟩ := getSession_eq_some hr
      have : x = r := mem_id_unique hnd hx hm (by rw [hc.1, hid])
      exact hne (this ▸ hc.2)
    · rw [if_neg hc]
  · intro hnone
    unfold updateClaudeState
    dsimp only
    apply map_id_of_fix
    intro x hx
    have : ¬(x.id == id) = true := by
      intro hc
      have := List.find?_eq_none.mp hnone x hx
      exact this hc
    simp [this]
  · constructor
    · intro hany
      obtain ⟨x, hx, hpx⟩ := List.any_eq_true.mp hany
      simp only [beq_iff_eq] at hpx
      exact ⟨x, by rw [← hpx]; exact getSession_of_mem hnd hx⟩
    · rintro ⟨r, hr⟩
      obtain ⟨hm, hid⟩ := getSession_eq_some hr
      exact List.any_eq_true.mpr ⟨r, hm, by simp [hid]⟩
  · intro r hr
    unfold updateClaudeState getSession
    dsimp only
    rw [find?_map_id_pres hg2]
    unfold getSession at hr
    rw [hr]
    obtain ⟨hm, hid⟩ := getSession_eq_some hr
    simp [hid]

/-- C6 witness: a concrete compare-and-set — matching expected state
applies the transition and reports `True`. -/
theorem update_claude_state_spec_witness :
    ((updateClaudeState [{ id := "s1", name := "n", claude_state := "not_started" }]
        "s1" "starting" (some "not_started")).2 = true ↔
      ∃ r, getSession [{ id := "s1", name := "n", claude_state := "not_started" }]
          "s1" = some r ∧ r.claude_state = "not_started") :=
  (update_claude_state_spec
    [{ id := "s1", name := "n", claude_state := "not_started" }]
    "s1" "starting" "not_started" (by decide)).1

/-! ## C2 — `ensure_session_alive` -/

/-- C2: `ensure_session_alive` returns `False` with no row; with a row and
an existing tmux session it returns `True`, flipping `is_alive` to true if
needed (writing nothing when the row was already alive); with a row but no
tmux session it recreates the tmux session — on success setting
`is_alive=true` and returning `True`, on failure marking the row dead and
returning `False`. -/
theorem ensure_session_alive_spec (db : DB) (tmux : Tmux) (muxOk : Bool)
    (id : String) :
    (getSession db id = none →
      ensureSessionAlive db tmux muxOk id = (false, db, tmux)) ∧
    (∀ s, getSession db id = some s → tmuxSessionExists tmux id = true →
      (ensureSessionAlive db tmux muxOk id).1 = true ∧
      getSession (ensureSessionAlive db tmux muxOk id).2.1 id
        = some { s with is_alive := true } ∧
      (ensureSessionAlive db tmux muxOk id).2.2 = tmux ∧
      (s.is_alive = true → (ensureSessionAlive db tmux muxOk id).2.1 = db)) ∧
    (∀ s, getSession db id = some s → tmuxSessionExists tmux id = false →
      muxOk = true →
      (ensureSessionAlive db tmux muxOk id).1 = true ∧
      getSession (ensureSessionAlive db tmux muxOk id).2.1 id
        = some { s with is_alive := true } ∧
      (ensureSessionAlive db tmux muxOk id).2.2
        = tmux ++ [tmuxSessionName id]) ∧
    (∀ s, getSession db id = some s → tmuxSessionExists tmux id = false →
      muxOk = false →
      (ensureSessionAlive db tmux muxOk id).1 = false ∧
      getSession (ensureSessionAlive db tmux muxOk id).2.1 id
        = some { s with is_alive := false } ∧
      (ensureSessionAlive db tmux muxOk id).2.2 = tmux) := by
  refine ⟨?_, ?_, ?_, ?_⟩
  · intro hnone
    simp [ensureSessionAlive, hnone]
  · intro s hs hex
    by_cases ha : s.is_alive = true
    · have hres : ensureSessionAlive db tmux muxOk id = (true, db, tmux) := by
        simp [ensureSessionAlive, hs, hex, ha]
      rw [hres]
      have hrow : ({ s with is_alive := true } : Row) = s := by rw [← ha]
      exact ⟨rfl, by rw [hs, hrow], rfl, fun _ => rfl⟩
    · have ha' : s.is_alive = false := by simpa using ha
      have hres : ensureSessionAlive db tmux muxOk id
          = (true, (updateSession db id [("is_alive", .bool true)]).1, tmux) := by
        simp [ensureSessionAlive, hs, hex, ha']
      rw [hres]
      have hupd := getSession_updateSession db id [("is_alive", .bool true)]
      rw [hs] at hupd
      refine ⟨rfl, by rw [hupd]; rfl, rfl, fun hcontra => ?_⟩
      rw [ha'] at hcontra
      cases hcontra
  · intro s hs hex hmux
    have hres : ensureSessionAlive db tmux muxOk id
        = (true, (updateSession db id [("is_alive", .bool true)]).1,
           tmux ++ [tmuxSessionName id]) := by
      simp [ensureSessionAlive, hs, hex, createTmuxSession, hmux]
    rw [hres]
    have hupd := getSession_updateSession db id [("is_alive", .bool true)]
    rw [hs] at hupd
    exact ⟨rfl, by rw [hupd]; rfl, rfl⟩
  · intro s hs hex hmux
    have hres : ensureSessionAlive db tmux muxOk id
        = (false, (markDead db id).1, tmux) := by
      simp [ensureSessionAlive, hs, hex, createTmuxSession, hmux]
    rw [hres]
    have hupd := getSession_updateSession db id [("is_alive", .bool false)]
    rw [hs] at hupd
    refine ⟨rfl, ?_, rfl⟩
    unfold markDead
    rw [hupd]
    rfl

/-- C2 witness: on a one-row store whose tmux session is gone and with tmux
creation failing, `ensure_session_alive` reports `False` and the row ends
up dead. -/
theorem ensure_session_alive_spec_witness :
    (ensureSessionAlive [{ id := "s1", name := "n", is_alive := true }]
        [] false "s1").1 = false ∧
    getSession
        (ensureSessionAlive [{ id := "s1", name := "n", is_alive := true }]
          [] false "s1").2.1 "s1"
      = some { id := "s1", name := "n", is_alive := false } ∧
    (ensureSessionAlive [{ id := "s1", name := "n", is_alive := true }]
        [] false "s1").2.2 = [] :=
  (ensure_session_alive_spec [{ id := "s1", name := "n", is_alive := true }]
    [] false "s1").2.2.2 { id := "s1", name := "n", is_alive := true }
    (by decide) (by decide) rfl

/-! ## C1 — atomic create with rollback -/

/-- The accumulator-picking fold of `get_dead_session_by_project` returns
its accumulator or a member of the list. -/
theorem foldl_pick_mem {l : List Row} :
    ∀ (acc : Option Row) (x : Row),
      l.foldl (fun acc r => match acc with
        | none => some r
        | some a => if a.created_at < r.created_at then some r else some a)
        acc = some x →
      acc = some x ∨ x ∈ l := by
  induction l with
  | nil => exact fun acc x h => Or.inl h
  | cons r tl ih =>
    intro acc x h
    rw [List.foldl_cons] at h
    rcases ih _ x h with hacc | hmem
    · cases acc with
      | none =>
        simp only [Option.some.injEq] at hacc
        exact Or.inr (List.mem_cons.mpr (Or.inl hacc.symm))
      | some a =>
        dsimp only at hacc
        by_cases hlt : a.created_at < r.created_at
        · rw [if_pos hlt, Option.some.injEq] at hacc
          exact Or.inr (List.mem_cons.mpr (Or.inl hacc.symm))
        · rw [if_neg hlt] at hacc
          exact Or.inl hacc
    · exact Or.inr (List.mem_cons_of_mem _ hmem)

/-- A hit of `get_dead_session_by_project` is a dead member of the table for
that project and mode. -/
theorem getDeadSessionByProject_spec {db : DB} {p mode : String} {d : Row}
    (h : getDeadSessionByProject db p mode = some d) :
    d ∈ db ∧ d.project_id = some p ∧ d.mode = mode ∧ d.is_alive = false := by
  unfold getDeadSessionByProject at h
  rcases foldl_pick_mem _ _ h with hacc | hmem
  · cases hacc
  · have hm := List.mem_filter.mp hmem
    have hcond := hm.2
    simp only [Bool.and_eq_true, beq_iff_eq, Bool.not_eq_true'] at hcond
    exact ⟨hm.1, hcond.1.1, hcond.1.2, hcond.2⟩

/-- Looking up the id of a member succeeds (with some row). -/
theorem getSession_isSome_of_mem {db : DB} {r : Row} (hm : r ∈ db) :
    ∃ x, getSession db r.id = some x := by
  unfold getSession
  cases hfind : List.find? (fun x => x.id == r.id) db with
  | some x => exact ⟨x, rfl⟩
  | none =>
    exact absurd (by simp : (r.id == r.id) = true)
      (List.find?_eq_none.mp hfind r hm)

/-- Mapping an id-preserving function leaves the id column of the table
unchanged. -/
theorem map_ids_of_pres {f : Row → Row} (hf : ∀ r, (f r).id = r.id)
    (db : DB) : (db.map f).map Row.id = db.map Row.id := by
  rw [List.map_map]
  exact List.map_congr_left (fun r _ => hf r)

/-- Evaluation of the `SET` clauses of the resurrection update. -/
theorem resFields_apply (x : Row) (name : String) (wd : Option String) :
    (([("name", Value.str name), ("working_dir", optVal wd),
       ("is_alive", Value.bool true)].filter isAllowedField).foldl
      applyField x)
      = { x with name := name, working_dir := wd, is_alive := true } := by
  cases wd <;> rfl

/-- The resurrection update has allowed fields to set. -/
theorem resFields_filter_ne_nil (name : String) (wd : Option String) :
    (([("name", Value.str name), ("working_dir", optVal wd),
      ("is_alive", Value.bool true)]).filter isAllowedField).isEmpty
      = false := by
  cases wd <;> rfl

/-- Evaluation of the `SET` clause of `mark_dead`. -/
theorem aliveFalse_apply (x : Row) :
    (([("is_alive", Value.bool false)].filter isAllowedField).foldl
      applyField x) = { x with is_alive := false } := rfl

/-- The per-row update on a row carrying the target id. -/
theorem updRow_eq_of_id {id : String} {fields : List (String × Value)}
    {r : Row} (h : r.id = id) :
    updRow id fields r = (fields.filter isAllowedField).foldl applyField r := by
  unfold updRow
  rw [if_pos (by simp [h])]

/-- The per-row update on a row carrying another id. -/
theorem updRow_eq_of_ne {id : String} {fields : List (String × Value)}
    {r : Row} (h : r.id ≠ id) : updRow id fields r = r := by
  unfold updRow
  rw [if_neg (by simp [h])]

/-- C1: `LifecycleCore.create_session`.  With a truthy `project_id` and a
dead row for `(project_id, mode)`, the dead row is resurrected: on tmux
failure the rollback is `mark_dead` — the row is kept, dead, and the error
propagated — and on success the row comes back alive with the new name and
working directory, under its old id.  Otherwise a new row is inserted: on
tmux failure the rollback is `delete_session` — the inserted row is removed
and the error propagated — and on success the new row is alive under the
fresh id.  In both failure cases no row with `is_alive=true` remains for
the attempted id. -/
theorem create_session_rollback_spec (db : DB) (tmux : Tmux) (muxOk : Bool)
    (newId name : String) (project_id working_dir user_id : Option String)
    (mode : String) (now : Nat) :
    (∀ p d, project_id = some p → p.isEmpty = false →
      getDeadSessionByProject db p mode = some d →
      tmuxSessionExists tmux d.id = false → muxOk = false →
      (lifecycleCreateSession db tmux muxOk newId name project_id working_dir
          user_id mode now).outcome = .error () ∧
      (∀ r ∈ (lifecycleCreateSession db tmux muxOk newId name project_id
          working_dir user_id mode now).db, r.id = d.id → r.is_alive = false) ∧
      d.id ∈ (lifecycleCreateSession db tmux muxOk newId name project_id
          working_dir user_id mode now).db.map Row.id ∧
      (lifecycleCreateSession db tmux muxOk newId name project_id working_dir
          user_id mode now).db.length = db.length ∧
      (lifecycleCreateSession db tmux muxOk newId name project_id working_dir
          user_id mode now).tmux = tmux) ∧
    (∀ p d, project_id = some p → p.isEmpty = false →
      getDeadSessionByProject db p mode = some d →
      (tmuxSessionExists tmux d.id = true ∨ muxOk = true) →
      (lifecycleCreateSession db tmux muxOk newId name project_id working_dir
          user_id mode now).outcome = .ok d.id ∧
      (∃ r, getSession (lifecycleCreateSession db tmux muxOk newId name
          project_id working_dir user_id mode now).db d.id = some r ∧
        r.is_alive = true ∧ r.name = name ∧ r.working_dir = working_dir)) ∧
    ((project_id = none ∨ ∃ p, project_id = some p ∧
        (p.isEmpty = true ∨ getDeadSessionByProject db p mode = none)) →
      newId ∉ db.map Row.id →
      tmuxSessionExists tmux newId = false → muxOk = false →
      (lifecycleCreateSession db tmux muxOk newId name project_id working_dir
          user_id mode now).outcome = .error () ∧
      (lifecycleCreateSession db tmux muxOk newId name project_id working_dir
          user_id mode now).db = db ∧
      (lifecycleCreateSession db tmux muxOk newId name project_id working_dir
          user_id mode now).tmux = tmux) ∧
    ((project_id = none ∨ ∃ p, project_id = some p ∧
        (p.isEmpty = true ∨ getDeadSessionByProject db p mode = none)) →
      newId ∉ db.map Row.id →
      (tmuxSessionExists tmux newId = true ∨ muxOk = true) →
      (lifecycleCreateSession db tmux muxOk newId name project_id working_dir
          user_id mode now).outcome = .ok newId ∧
      getSession (lifecycleCreateSession db tmux muxOk newId name project_id
          working_dir user_id mode now).db newId
        = some (newSessionRow db newId name project_id working_dir user_id
            mode none now)) := by
  have hredDead : ∀ p d, project_id = some p → p.isEmpty = false →
      getDeadSessionByProject db p mode = some d →
      lifecycleCreateSession db tmux muxOk newId name project_id working_dir
          user_id mode now
        = resurrectDeadSession db tmux muxOk d name working_dir := by
    intro p d hp hpe hdead
    subst hp
    simp [lifecycleCreateSession, hpe, hdead]
  have hredFresh : (project_id = none ∨ ∃ p, project_id = some p ∧
      (p.isEmpty = true ∨ getDeadSessionByProject db p mode = none)) →
      lifecycleCreateSession db tmux muxOk newId name project_id working_dir
          user_id mode now
        = (match createTmuxSession tmux muxOk newId with
          | .ok tmux' => ⟨.ok newId, (storeCreateSession db newId name
              project_id working_dir user_id mode none now).1, tmux'⟩
          | .error _ => ⟨.error (), (storeDeleteSession
              (storeCreateSession db newId name project_id working_dir
                user_id mode none now).1 newId).1, tmux⟩) := by
    rintro (rfl | ⟨p, rfl, hcase⟩)
    · simp [lifecycleCreateSession, storeCreateSession]
    · rcases hcase with hpe | hdead
      · simp [lifecycleCreateSession, hpe, storeCreateSession]
      · by_cases hpe : p.isEmpty
        · simp [lifecycleCreateSession, hpe, storeCreateSession]
        · simp [lifecycleCreateSession, hpe, hdead, storeCreateSession]
  refine ⟨?_, ?_, ?_, ?_⟩
  · intro p d hp hpe hdead hex hmux
    rw [hredDead p d hp hpe hdead]
    have hfail : createTmuxSession tmux muxOk d.id = .error () := by
      simp [createTmuxSession, hex, hmux]
    unfold resurrectDeadSession
    rw [hfail]
    dsimp only
    obtain ⟨hdm, -, -, -⟩ := getDeadSessionByProject_spec hdead
    refine ⟨rfl, ?_, ?_, ?_, rfl⟩
    · intro r hr hrid
      unfold markDead updateSession at hr
      rw [if_neg (by decide)] at hr
      dsimp only at hr
      obtain ⟨y, hy, hyr⟩ := List.mem_map.mp hr
      rw [← hyr, updRow_eq_of_id (by rw [← hrid, ← hyr, updRow_id]),
        aliveFalse_apply]
    · unfold markDead updateSession
      rw [if_neg (by decide)]
      dsimp only
      rw [map_ids_of_pres (updRow_id _ _),
        if_neg (by simp [resFields_filter_ne_nil])]
      dsimp only
      rw [map_ids_of_pres (updRow_id _ _)]
      exact List.mem_map_of_mem Row.id hdm
    · unfold markDead updateSession
      rw [if_neg (by decide)]
      dsimp only
      rw [List.length_map,
        if_neg (by simp [resFields_filter_ne_nil])]
      dsimp only
      rw [List.length_map]
  · intro p d hp hpe hdead hok
    rw [hredDead p d hp hpe hdead]
    have hsucc : createTmuxSession tmux muxOk d.id
        = .ok (if tmuxSessionExists tmux d.id then tmux
            else tmux ++ [tmuxSessionName d.id]) := by
      rcases hok with hex | hmux
      · simp [createTmuxSession, hex]
      · unfold createTmuxSession
        by_cases hex : (tmuxSessionExists tmux d.id : Prop)
        · simp [hex]
        · simp [hex, hmux]
    unfold resurrectDeadSession
    rw [hsucc]
    dsimp only
    obtain ⟨hdm, -, -, -⟩ := getDeadSessionByProject_spec hdead
    obtain ⟨x, hx⟩ := getSession_isSome_of_mem hdm
    refine ⟨rfl, ?_⟩
    have hupd := getSession_updateSession db d.id
      [("name", Value.str name), ("working_dir", optVal working_dir),
       ("is_alive", Value.bool true)]
    rw [hx] at hupd
    refine ⟨{ x with name := name, working_dir := working_dir, is_alive := true }, ?_, rfl, rfl, rfl⟩
    rw [hupd, Option.map_some', resFields_apply]
  · intro hfresh hnew hex hmux
    rw [hredFresh hfresh]
    have hfail : createTmuxSession tmux muxOk newId = .error () := by
      simp [createTmuxSession, hex, hmux]
    rw [hfail]
    dsimp only
    refine ⟨rfl, ?_, rfl⟩
    unfold storeDeleteSession storeCreateSession
    dsimp only
    rw [List.filter_append]
    have h1 : db.filter (fun r => !(r.id == newId)) = db := by
      apply List.filter_eq_self.mpr
      intro r hr
      simp only [Bool.not_eq_true']
      apply Bool.eq_false_iff.mpr
      intro hc
      exact hnew (by
        simp only [beq_iff_eq] at hc
        exact hc ▸ List.mem_map_of_mem Row.id hr)
    have h2 : [newSessionRow db newId name project_id working_dir user_id
        mode none now].filter (fun r => !(r.id == newId)) = [] := by
      simp [newSessionRow]
    rw [h1, h2, List.append_nil]
  · intro hfresh hnew hok
    rw [hredFresh hfresh]
    have hsucc : ∃ t, createTmuxSession tmux muxOk newId = .ok t := by
      rcases hok with hex | hmux
      · exact ⟨tmux, by simp [createTmuxSession, hex]⟩
      · unfold createTmuxSession
        by_cases hex : (tmuxSessionExists tmux newId : Prop)
        · exact ⟨tmux, by simp [hex]⟩
        · exact ⟨tmux ++ [tmuxSessionName newId], by simp [hex, hmux]⟩
    obtain ⟨t, ht⟩ := hsucc
    rw [ht]
    dsimp only
    refine ⟨rfl, ?_⟩
    unfold storeCreateSession getSession
    dsimp only
    rw [List.find?_append]
    have h1 : db.find? (fun r => r.id == newId) = none := by
      apply List.find?_eq_none.mpr
      intro r hr hc
      exact hnew (by
        simp only [beq_iff_eq] at hc
        exact hc ▸ List.mem_map_of_mem Row.id hr)
    rw [h1]
    simp [newSessionRow]

/-- C1 witness: with a dead row for the project and tmux creation failing,
resurrection rolls back with `mark_dead`: the error is propagated, the row
survives, dead. -/
theorem create_session_rollback_spec_witness :
    (lifecycleCreateSession
        [{ id := "old", name := "o", project_id := some "p",
           is_alive := false }] [] false "new" "n" (some "p") none none
        "shell" 0).outcome = .error () ∧
    (∀ r ∈ (lifecycleCreateSession
        [{ id := "old", name := "o", project_id := some "p",
           is_alive := false }] [] false "new" "n" (some "p") none none
        "shell" 0).db, r.id = "old" → r.is_alive = false) ∧
    "old" ∈ (lifecycleCreateSession
        [{ id := "old", name := "o", project_id := some "p",
           is_alive := false }] [] false "new" "n" (some "p") none none
        "shell" 0).db.map Row.id ∧
    (lifecycleCreateSession
        [{ id := "old", name := "o", project_id := some "p",
           is_alive := false }] [] false "new" "n" (some "p") none none
        "shell" 0).db.length = 1 ∧
    (lifecycleCreateSession
        [{ id := "old", name := "o", project_id := some "p",
           is_alive := false }] [] false "new" "n" (some "p") none none
        "shell" 0).tmux = [] :=
  (create_session_rollback_spec
    [{ id := "old", name := "o", project_id := some "p", is_alive := false }]
    [] false "new" "n" (some "p") none none "shell" 0).1
    "p" { id := "old", name := "o", project_id := some "p", is_alive := false }
    rfl (by decide) (by decide) (by decide) rfl

/-! ## C3 — `LifecycleBatch.reset_session` -/

/-- After `LifecycleCore.delete_session`, no Store row for the id remains. -/
theorem getSession_lifecycleDelete (db : DB) (tmux : Tmux) (id : String) :
    getSession (lifecycleDeleteSession db tmux id).2.1 id = none := by
  apply List.find?_eq_none.mpr
  intro r hr
  have hm := List.mem_filter.mp hr
  simpa using hm.2

/-- C3 (code defect): on an existing row, `LifecycleBatch.reset_session`
deletes the session and then raises `TypeError` — the call passes the
keyword argument `pane_id` to `lifecycle_core.create_session`, whose
signature does not declare it — so no replacement is created and no id is
returned; with no row it returns `None`. -/
theorem batch_reset_session_type_error (db : DB) (tmux : Tmux) (id : String) :
    (getSession db id = none →
      batchResetSession db tmux id = ⟨.ok (.ok none), db, tmux⟩) ∧
    (∀ s, getSession db id = some s →
      (batchResetSession db tmux id).outcome = .ok (.error .typeError) ∧
      getSession (batchResetSession db tmux id).db id = none) := by
  constructor
  · intro h
    simp [batchResetSession, h]
  · intro s hs
    have hred : batchResetSession db tmux id
        = ⟨.ok (.error .typeError), (lifecycleDeleteSession db tmux id).2.1,
           (lifecycleDeleteSession db tmux id).2.2⟩ := by
      simp [batchResetSession, hs, lifecycleDeleteSession]
    rw [hred]
    exact ⟨rfl, getSession_lifecycleDelete db tmux id⟩

/-- C3 witness: resetting an existing one-row store raises `TypeError`
after the delete. -/
theorem batch_reset_session_type_error_witness :
    (batchResetSession [{ id := "s1", name := "n" }] ["summitflow-s1"]
        "s1").outcome = .ok (.error .typeError) ∧
    getSession (batchResetSession [{ id := "s1", name := "n" }]
        ["summitflow-s1"] "s1").db "s1" = none :=
  (batch_reset_session_type_error [{ id := "s1", name := "n" }]
    ["summitflow-s1"] "s1").2 { id := "s1", name := "n" } (by decide)

/-! ## C4 — `session_number` computation -/

/-- C4 counterexample: a project with one live claude-mode row numbered 5.
`create_pane_with_sessions` numbers both inserted sessions 6 — its
`MAX(session_number)` subquery filters only on `(project_id, is_alive)` —
while the claimed per-`(project_id, mode)` formula gives 1 for the shell
insert. -/
theorem session_number_pane_counterexample :
    (match createPaneWithSessions
        [{ id := "c1", name := "x", project_id := some "p", mode := "claude", session_number := 5 }]
        [] "pa" "sh" "cl" "project" "P" (some "p") none none 0 with
      | .ok res => res.2.2.2.map Row.session_number
      | .error _ => []) = [6, 6] ∧
    specSessionNumber
        [{ id := "c1", name := "x", project_id := some "p", mode := "claude", session_number := 5 }]
        (some "p") "shell" = 1 ∧ (6 : Nat) ≠ 1 := by
  refine ⟨?_, by decide, by decide⟩
  rfl

/-- C4 as amended: `Store.create_session` computes `session_number` as the
claimed `COALESCE(MAX(session_number), 0) + 1` over the rows with the same
`project_id` and `mode` that are alive (1 when `project_id` is null or
empty); `create_pane_with_sessions`, however, filters only on
`(project_id, is_alive)` — no `mode` filter — and gives the one resulting
number to every session it inserts. -/
theorem session_number_insert_spec (db : DB) (panes : List Pane)
    (newPaneId shellId claudeId pane_type pane_name : String)
    (project_id working_dir : Option String) (pane_order : Option Int)
    (now : Nat) (mode : String) :
    (∀ p, project_id = some p → p.isEmpty = false →
      storeSessionNumber db project_id mode
        = specSessionNumber db project_id mode) ∧
    (project_id = none → storeSessionNumber db project_id mode = 1) ∧
    (∀ res, createPaneWithSessions db panes newPaneId shellId claudeId
        pane_type pane_name project_id working_dir pane_order now = .ok res →
      ∀ r ∈ res.2.2.2, r.session_number
        = (if truthy project_id then
            maxSessionNumber (db.filter (fun r =>
              r.project_id == project_id && r.is_alive)) + 1
          else 1)) := by
  refine ⟨?_, ?_, ?_⟩
  · intro p hp hpe
    subst hp
    unfold storeSessionNumber specSessionNumber
    rw [if_pos (by simp [truthy, hpe])]
  · intro hp
    subst hp
    rfl
  · intro res hres r hr
    unfold createPaneWithSessions at hres
    by_cases h1 : (pane_type == "project" && !truthy project_id) = true
    · rw [if_pos h1] at hres
      cases hres
    rw [if_neg h1] at hres
    by_cases h2 : (pane_type == "adhoc" && truthy project_id) = true
    · rw [if_pos h2] at hres
      cases hres
    rw [if_neg h2] at hres
    dsimp only at hres
    by_cases h3 : (pane_type == "project") = true
    · rw [if_pos h3] at hres
      cases hres
      simp only [List.mem_cons, List.not_mem_nil, or_false] at hr
      rcases hr with rfl | rfl <;> rfl
    · rw [if_neg h3] at hres
      cases hres
      simp only [List.mem_cons, List.not_mem_nil, or_false] at hr
      rcases hr with rfl
      rfl

/-- C4 amended-claim witness: with no project, the Store path numbers the
session 1, and an adhoc pane's single shell session is numbered 1. -/
theorem session_number_insert_spec_witness :
    storeSessionNumber [] none "shell" = 1 ∧
    (∀ res, createPaneWithSessions [] [] "pa" "sh" "cl" "adhoc" "P" none
        none none 0 = .ok res →
      ∀ r ∈ res.2.2.2, r.session_number
        = (if truthy none then
            maxSessionNumber (List.filter (fun r =>
              r.project_id == none && r.is_alive) []) + 1
          else 1)) :=
  ⟨(session_number_insert_spec [] [] "pa" "sh" "cl" "adhoc" "P" none none
      none 0 "shell").2.1 rfl,
   (session_number_insert_spec [] [] "pa" "sh" "cl" "adhoc" "P" none none
      none 0 "shell").2.2⟩

/-! ## C9 — session-switch hook -/

/-- A list is a prefix of itself followed by anything. -/
theorem isPrefixOf_append_self (l₁ l₂ : List Char) :
    l₁.isPrefixOf (l₁ ++ l₂) = true := by
  induction l₁ with
  | nil => simp [List.isPrefixOf]
  | cons a as ih => simp [List.isPrefixOf, ih]

/-- `updateClaudeSession` never changes the primary key. -/
theorem updateClaudeSession_g_id (id : String) (v : Option String) :
    ∀ r : Row, ((fun r => if r.id == id then
      { r with last_claude_session :=
          if (v.getD "").isEmpty then none else some (v.getD "") }
      else r) r).id = r.id := by
  intro r
  dsimp only
  by_cases hc : (r.id == id) = true
  · rw [if_pos hc]
  · rw [if_neg hc]

/-- What a row looks up to after `update_claude_session`. -/
theorem getSession_updateClaudeSession (db : DB) (id : String)
    (v : Option String) {r : Row} (hr : getSession db id = some r) :
    getSession (updateClaudeSession db id v) id
      = some { r with last_claude_session :=
          if (v.getD "").isEmpty then none else some (v.getD "") } := by
  unfold updateClaudeSession getSession
  rw [find?_map_id_pres (updateClaudeSession_g_id id v)]
  unfold getSession at hr
  rw [hr, Option.map_some']
  have hp := List.find?_some hr
  rw [if_pos hp]

/-- C9 counterexample: a loopback invocation with
`from = summitflow-abc` and an invalid `to` (`"bad name"` fails
`validate_session_name`) is rejected without writing, so
`last_target_session` is not set to `to` as the claim states. -/
theorem session_switch_hook_counterexample :
    sessionSwitchHook [{ id := "abc", name := "n" }] true "summitflow-abc"
        "bad name" = ([{ id := "abc", name := "n" }], .rejected) ∧
    ¬((getSession (sessionSwitchHook [{ id := "abc", name := "n" }] true
          "summitflow-abc" "bad name").1 "abc").map Row.last_claude_session
        = some (some "bad name")) := by
  constructor
  · rfl
  · intro h
    rw [show (sessionSwitchHook [{ id := "abc", name := "n" }] true
        "summitflow-abc" "bad name").1 = [{ id := "abc", name := "n" }]
      from rfl] at h
    simp [getSession, List.find?] at h

/-- C9 as amended: for a hook invocation whose `from` is the base session
`summitflow-<id>`, provided both names pass `validate_session_name`: if
`to` is itself service-prefixed, `last_target_session` for `id` is cleared;
otherwise it is set to `to`.  A non-loopback invocation, or one with an
invalid name, is rejected without writing to the Store. -/
theorem session_switch_hook_spec (db : DB) (id toName : String) :
    (∀ fromN toN, sessionSwitchHook db false fromN toN = (db, .rejected)) ∧
    (∀ fromN toN, validateSessionName toN = false →
      (fromN.isEmpty = true ∨ validateSessionName fromN = true) →
      sessionSwitchHook db true fromN toN = (db, .rejected)) ∧
    (validateSessionName ("summitflow-" ++ id) = true →
      validateSessionName toName = true →
      svcPre.isPrefixOf toName.toList = true →
      sessionSwitchHook db true ("summitflow-" ++ id) toName
        = (updateClaudeSession db id none, .cleared) ∧
      (∀ r, getSession db id = some r →
        getSession (sessionSwitchHook db true ("summitflow-" ++ id)
            toName).1 id = some { r with last_claude_session := none })) ∧
    (validateSessionName ("summitflow-" ++ id) = true →
      validateSessionName toName = true →
      svcPre.isPrefixOf toName.toList = false →
      sessionSwitchHook db true ("summitflow-" ++ id) toName
        = (updateClaudeSession db id (some toName), .stored) ∧
      (∀ r, getSession db id = some r →
        getSession (sessionSwitchHook db true ("summitflow-" ++ id)
            toName).1 id
          = some { r with last_claude_session := some toName })) := by
  have hcat : ("summitflow-" ++ id).toList = svcPre ++ id.toList := by
    show ("summitflow-" ++ id).data = svcPre ++ id.data
    rw [String.data_append]
    rfl
  have hstrip : ("summitflow-" ++ id).toList.drop svcPre.length = id.toList := by
    rw [hcat]
    exact List.drop_left svcPre id.toList
  have hpre : svcPre.isPrefixOf (("summitflow-" ++ id).toList) = true := by
    rw [hcat]
    exact isPrefixOf_append_self svcPre id.toList
  have hmk : String.mk (("summitflow-" ++ id).toList.drop svcPre.length) = id := by
    rw [hstrip]
    rfl
  refine ⟨?_, ?_, ?_, ?_⟩
  · intro fromN toN
    rfl
  · intro fromN toN hbad hfrom
    unfold sessionSwitchHook
    rw [if_neg (by simp)]
    rcases hfrom with hfe | hfv
    · rw [if_neg (by simp [hfe]), if_pos (by simp [hbad])]
    · rw [if_neg (by simp [hfv]), if_pos (by simp [hbad])]
  · intro hfv htv hto
    have hres : sessionSwitchHook db true ("summitflow-" ++ id) toName
        = (updateClaudeSession db id none, .cleared) := by
      unfold sessionSwitchHook
      rw [if_neg (by simp), if_neg (by simp [hfv]), if_neg (by simp [htv]),
        if_neg (by rw [hpre]; decide), if_pos hto, hmk]
    refine ⟨hres, ?_⟩
    intro r hr
    rw [hres]
    exact getSession_updateClaudeSession db id none hr
  · intro hfv htv hto
    have htne : toName.isEmpty = false := by
      rw [Bool.eq_false_iff]
      intro hcon
      rw [String.isEmpty_iff] at hcon
      rw [hcon] at htv
      exact absurd htv (by decide)
    have hres : sessionSwitchHook db true ("summitflow-" ++ id) toName
        = (updateClaudeSession db id (some toName), .stored) := by
      unfold sessionSwitchHook
      rw [if_neg (by simp), if_neg (by simp [hfv]), if_neg (by simp [htv]),
        if_neg (by rw [hpre]; decide),
        if_neg (by rw [hto]; exact Bool.false_ne_true), hmk]
    refine ⟨hres, ?_⟩
    intro r hr
    rw [hres]
    have h2 := getSession_updateClaudeSession db id (some toName) hr
    rw [h2]
    simp [htne]

/-- C9 amended-claim witness: `from = summitflow-abc`, `to = claude-proj`
(valid, not service-prefixed) stores the target on the row. -/
theorem session_switch_hook_spec_witness :
    sessionSwitchHook [{ id := "abc", name := "n" }] true "summitflow-abc"
        "claude-proj"
      = (updateClaudeSession [{ id := "abc", name := "n" }] "abc"
          (some "claude-proj"), .stored) ∧
    getSession (sessionSwitchHook [{ id := "abc", name := "n" }] true
        "summitflow-abc" "claude-proj").1 "abc"
      = some { id := "abc", name := "n",
               last_claude_session := some "claude-proj" } := by
  have h := (session_switch_hook_spec [{ id := "abc", name := "n" }] "abc"
    "claude-proj").2.2.2 (by decide) (by decide) (by decide)
  exact ⟨h.1, h.2 { id := "abc", name := "n" } (by decide)⟩

/-! ## C5 — startup reconciliation -/

/-- Characters of a service-prefixed name. -/
theorem svc_toList (id : String) :
    ("summitflow-" ++ id).toList = svcPre ++ id.toList := by
  show ("summitflow-" ++ id).data = svcPre ++ id.data
  rw [String.data_append]
  rfl

/-- Strings with the same characters are equal. -/
theorem string_data_ext {s t : String} (h : s.data = t.data) : s = t := by
  cases s
  cases t
  exact congrArg String.mk h

/-- `contains` on a string list is membership. -/
theorem contains_eq_mem (l : List String) (a : String) :
    l.contains a = true ↔ a ∈ l := by
  simp [List.contains_iff_exists_mem_beq]

/-- `str.replace` leaves a string without an occurrence of the pattern
unchanged (with any fuel). -/
theorem replaceSubFuel_of_not_hasSub {pat rep : List Char} :
    ∀ (fuel : Nat) {s : List Char}, hasSub pat s = false →
      replaceSubFuel pat rep fuel s = s := by
  intro fuel
  induction fuel with
  | zero => intro s _; cases s <;> rfl
  | succ n ih =>
    intro s h
    cases s with
    | nil => rfl
    | cons c rest =>
      unfold hasSub at h
      rw [Bool.or_eq_false_iff] at h
      show replaceSubFuel pat rep (n + 1) (c :: rest) = c :: rest
      unfold replaceSubFuel
      rw [if_neg (fun hc => by rw [h.1] at hc; exact Bool.false_ne_true hc.2)]
      rw [ih h.2]

/-- `str.replace` leaves a string without an occurrence of the pattern
unchanged. -/
theorem replaceSub_of_not_hasSub {pat rep : List Char} {s : List Char}
    (h : hasSub pat s = false) : replaceSub pat rep s = s :=
  replaceSubFuel_of_not_hasSub s.length h

/-- One fuel step removes a leading occurrence of the pattern. -/
theorem replaceSubFuel_append_self {pat rep : List Char} (hne : pat ≠ [])
    (m : Nat) (l : List Char) :
    replaceSubFuel pat rep (m + 1) (pat ++ l)
      = rep ++ replaceSubFuel pat rep m l := by
  cases pat with
  | nil => exact absurd rfl hne
  | cons p ps =>
    show replaceSubFuel (p :: ps) rep (m + 1) (p :: (ps ++ l))
      = rep ++ replaceSubFuel (p :: ps) rep m l
    rw [replaceSubFuel]
    rw [if_pos ⟨hne, isPrefixOf_append_self (p :: ps) l⟩]
    congr 1
    have hdrop : (p :: (ps ++ l)).drop (p :: ps).length = l :=
      List.drop_left (p :: ps) l
    rw [hdrop]

/-- Stripping the prefix of a well-formed service name yields its id. -/
theorem stripSvc_append (i : String) (hclean : hasSub svcPre i.toList = false) :
    stripSvc ("summitflow-" ++ i) = i := by
  unfold stripSvc replaceSub
  rw [svc_toList]
  have hlen : (svcPre ++ i.toList).length = (10 + i.toList.length) + 1 := by
    rw [List.length_append]
    have h11 : svcPre.length = 11 := by decide
    omega
  rw [hlen, replaceSubFuel_append_self (by decide), List.nil_append,
    replaceSubFuel_of_not_hasSub _ hclean]
  exact string_data_ext rfl

/-- Evaluation of the `SET` clause that revives a row. -/
theorem aliveTrue_apply (x : Row) :
    (([("is_alive", Value.bool true)].filter isAllowedField).foldl
      applyField x) = { x with is_alive := true } := rfl

/-- The `UPDATE` of `update_session` on a table in which only the middle row
carries the id. -/
theorem map_updRow_middle {i : String} {fields : List (String × Value)}
    {xs ys : List Row} {s : Row}
    (hx : ∀ x ∈ xs, x.id ≠ i) (hy : ∀ y ∈ ys, y.id ≠ i) (hs : s.id = i) :
    (xs ++ s :: ys).map (updRow i fields)
      = xs ++ ((fields.filter isAllowedField).foldl applyField s) :: ys := by
  rw [List.map_append, List.map_cons,
    map_id_of_fix xs (fun x hx' => updRow_eq_of_ne (hx x hx')),
    map_id_of_fix ys (fun y hy' => updRow_eq_of_ne (hy y hy')),
    updRow_eq_of_id hs]

/-- The row loop of `reconcile_on_startup` turns the whole table into its
synced image: each row's `is_alive` becomes whether tmux still has its
session. -/
theorem reconcile_fold_sync (tids : List String) :
    ∀ (post pre : List Row), ((pre ++ post).map Row.id).Nodup →
      post.foldl (reconcileSyncStep tids)
          (pre.map (fun r => { r with is_alive := tids.contains r.id }) ++ post)
        = (pre ++ post).map (fun r => { r with is_alive := tids.contains r.id }) := by
  intro post
  induction post with
  | nil =>
    intro pre hnd
    simp
  | cons s rest ih =>
    intro pre hnd
    have hnd' := hnd
    rw [List.map_append, List.map_cons, List.nodup_middle, List.nodup_cons]
      at hnd'
    have hsid : s.id ∉ pre.map Row.id ++ rest.map Row.id := hnd'.1
    have hpre_ne : ∀ x ∈ pre.map
        (fun r => { r with is_alive := tids.contains r.id }), x.id ≠ s.id := by
      intro x hx
      obtain ⟨y, hy, rfl⟩ := List.mem_map.mp hx
      intro hcon
      have hyid : y.id = s.id := hcon
      exact hsid (List.mem_append.mpr
        (Or.inl (hyid ▸ List.mem_map_of_mem Row.id hy)))
    have hrest_ne : ∀ y ∈ rest, y.id ≠ s.id := by
      intro y hy hcon
      exact hsid (List.mem_append.mpr
        (Or.inr (hcon ▸ List.mem_map_of_mem Row.id hy)))
    have hstep : reconcileSyncStep tids
        (pre.map (fun r => { r with is_alive := tids.contains r.id })
          ++ s :: rest) s
        = pre.map (fun r => { r with is_alive := tids.contains r.id })
            ++ { s with is_alive := tids.contains s.id } :: rest := by
      unfold reconcileSyncStep
      by_cases htid : tids.contains s.id = true
      · rw [if_pos htid, htid]
        by_cases ha : s.is_alive = true
        · rw [ha]
          have hrow : ({ s with is_alive := true } : Row) = s := by rw [← ha]
          rw [hrow]
          rfl
        · have ha' : s.is_alive = false := by simpa using ha
          rw [ha']
          rw [if_pos (by decide)]
          unfold updateSession
          rw [if_neg (by decide)]
          dsimp only
          rw [map_updRow_middle hpre_ne hrest_ne rfl, aliveTrue_apply]
      · have htid' : tids.contains s.id = false := by simpa using htid
        rw [if_neg htid, htid']
        by_cases ha : s.is_alive = true
        · rw [ha]
          rw [if_pos (by decide)]
          unfold markDead updateSession
          rw [if_neg (by decide)]
          dsimp only
          rw [map_updRow_middle hpre_ne hrest_ne rfl, aliveFalse_apply]
        · have ha' : s.is_alive = false := by simpa using ha
          rw [ha']
          have hrow : ({ s with is_alive := false } : Row) = s := by rw [← ha']
          rw [hrow]
          rfl
    rw [List.foldl_cons, hstep]
    have hre : pre.map (fun r => { r with is_alive := tids.contains r.id })
          ++ { s with is_alive := tids.contains s.id } :: rest
        = (pre ++ [s]).map (fun r => { r with is_alive := tids.contains r.id })
          ++ rest := by
      rw [List.map_append]
      simp
    rw [hre, ih (pre ++ [s]) (by rw [List.append_assoc]; exact hnd),
      List.append_assoc]
    rfl

/-- A name survives the orphan-kill loop exactly when it is not the base
name of any orphan id. -/
theorem mem_killOrphans_foldl (orphans : List String) :
    ∀ (tmux : Tmux) (n : String),
      n ∈ orphans.foldl (fun t i => (killTmuxSession t i).1) tmux ↔
        (n ∈ tmux ∧ ∀ i ∈ orphans, n ≠ tmuxSessionName i) := by
  induction orphans with
  | nil => simp
  | cons o os ih =>
    intro tmux n
    rw [List.foldl_cons, ih]
    unfold killTmuxSession
    dsimp only
    rw [List.mem_filter]
    simp only [Bool.not_eq_true', beq_eq_false_iff_ne, List.mem_cons]
    constructor
    · rintro ⟨⟨h1, h2⟩, h3⟩
      exact ⟨h1, fun i hi => hi.elim (fun he => he ▸ h2) (h3 i)⟩
    · rintro ⟨h1, h2⟩
      exact ⟨⟨h1, h2 o (Or.inl rfl)⟩, fun i hi => h2 i (Or.inr hi)⟩

/-- C5: startup reconciliation syncs every row's `is_alive` with the tmux
session set (flipping dead rows with a live session to alive and live rows
with no session to dead), then purges dead rows not accessed since the
7-day cutoff, and then kills exactly the service-prefixed tmux sessions
whose stripped id is absent from the post-purge Store id set. -/
theorem reconcile_on_startup_spec (db : DB) (tmux : Tmux) (now : Nat)
    (hnd : (db.map Row.id).Nodup)
    (hwf : ∀ n ∈ tmux, svcPre.isPrefixOf n.toList = true →
      ∃ i : String, n = "summitflow-" ++ i ∧ hasSub svcPre i.toList = false) :
    (∀ r' ∈ (reconcileOnStartup db tmux now).1, ∃ r ∈ db,
      r' = { r with is_alive := (listTmuxSessionIds tmux).contains r.id }) ∧
    (∀ r ∈ db,
      ({ r with is_alive := (listTmuxSessionIds tmux).contains r.id }
          ∈ (reconcileOnStartup db tmux now).1 ↔
        ((listTmuxSessionIds tmux).contains r.id = true ∨
          now - 7 * 86400 ≤ r.last_accessed_at))) ∧
    (∀ n ∈ tmux, (n ∈ (reconcileOnStartup db tmux now).2 ↔
      (svcPre.isPrefixOf n.toList = true →
        stripSvc n ∈ (reconcileOnStartup db tmux now).1.map Row.id))) ∧
    (∀ n ∈ (reconcileOnStartup db tmux now).2, n ∈ tmux) := by
  have hdb1 : db.foldl (reconcileSyncStep (listTmuxSessionIds tmux)) db
      = db.map (fun r =>
          { r with is_alive := (listTmuxSessionIds tmux).contains r.id }) := by
    have h := reconcile_fold_sync (listTmuxSessionIds tmux) db []
      (by simpa using hnd)
    simpa using h
  have hmain : reconcileOnStartup db tmux now
      = ((purgeDeadSessions (db.map (fun r =>
            { r with is_alive := (listTmuxSessionIds tmux).contains r.id }))
            (now - 7 * 86400)).1,
         killOrphanTmuxSessions tmux ((purgeDeadSessions (db.map (fun r =>
            { r with is_alive := (listTmuxSessionIds tmux).contains r.id }))
            (now - 7 * 86400)).1.map Row.id)) := by
    unfold reconcileOnStartup
    simp only [hdb1]
  rw [hmain]
  dsimp only
  refine ⟨?_, ?_, ?_, ?_⟩
  · intro r' hr'
    unfold purgeDeadSessions at hr'
    dsimp only at hr'
    have hm := (List.mem_filter.mp hr').1
    obtain ⟨r, hr, hsync⟩ := List.mem_map.mp hm
    exact ⟨r, hr, hsync.symm⟩
  · intro r hr
    unfold purgeDeadSessions
    dsimp only
    rw [List.mem_filter]
    constructor
    · rintro ⟨-, hkeep⟩
      by_cases hc : (listTmuxSessionIds tmux).contains r.id = true
      · exact Or.inl hc
      · refine Or.inr ?_
        simp only [hc, Bool.not_false, Bool.true_and, Bool.not_eq_true',
          decide_eq_false_iff_not, Nat.not_lt] at hkeep
        exact hkeep
    · intro hor
      refine ⟨List.mem_map_of_mem _ hr, ?_⟩
      rcases hor with hc | hacc
      · simp [hc]
        exact Or.inl ((contains_eq_mem _ _).mp hc)
      · simp
        exact Or.inr (by omega)
  · intro n hn
    unfold killOrphanTmuxSessions
    dsimp only
    rw [mem_killOrphans_foldl]
    by_cases hp : svcPre.isPrefixOf n.toList = true
    · obtain ⟨j, rfl, hclean⟩ := hwf n hn hp
      have hstrip : stripSvc ("summitflow-" ++ j) = j := stripSvc_append j hclean
      have hjid : j ∈ listTmuxSessionIds tmux := by
        rw [← hstrip]
        exact List.mem_map_of_mem stripSvc (List.mem_filter.mpr ⟨hn, hp⟩)
      rw [hstrip]
      constructor
      · rintro ⟨-, hnone⟩ -
        by_contra habs
        refine hnone j (List.mem_filter.mpr ⟨hjid, ?_⟩) rfl
        simp only [Bool.not_eq_true']
        rw [Bool.eq_false_iff]
        intro hcon
        exact habs ((contains_eq_mem _ _).mp hcon)
      · intro himp
        refine ⟨hn, ?_⟩
        intro i hi hcon
        have hji : j = i := by
          unfold tmuxSessionName at hcon
          have hd := congrArg String.data hcon
          rw [String.data_append, String.data_append] at hd
          exact string_data_ext (List.append_cancel_left hd)
        have hio := List.mem_filter.mp hi
        rw [← hji] at hio
        have := hio.2
        simp only [Bool.not_eq_true'] at this
        rw [Bool.eq_false_iff] at this
        exact this ((contains_eq_mem _ _).mpr (himp hp))
    · constructor
      · intro _ hcon
        exact absurd hcon hp
      · intro _
        refine ⟨hn, ?_⟩
        intro i hi hcon
        apply hp
        rw [hcon]
        show svcPre.isPrefixOf (tmuxSessionName i).toList = true
        unfold tmuxSessionName
        rw [svc_toList]
        exact isPrefixOf_append_self svcPre i.toList
  · intro n hn
    unfold killOrphanTmuxSessions at hn
    dsimp only at hn
    exact ((mem_killOrphans_foldl _ _ _).mp hn).1

/-- C5 witness (the spec's scenario S6): rows A (alive, tmux has it),
B (dead, last touched at time 0) and C (alive, no tmux session); tmux also
holds the orphan `summitflow-x` and an unrelated session.  At `now` = day
10: B misses the 7-day cutoff and is purged. -/
theorem reconcile_on_startup_spec_witness :
    ({ id := "b", name := "B", is_alive := false, last_accessed_at := 0 : Row}
        = { id := "b", name := "B", is_alive := false, last_accessed_at := 0 : Row}) ∧
    ¬({ id := "b", name := "B", is_alive := false, last_accessed_at := 0 : Row}
        ∈ (reconcileOnStartup
            [{ id := "a", name := "A", is_alive := true, last_accessed_at := 863000 },
             { id := "b", name := "B", is_alive := false, last_accessed_at := 0 },
             { id := "c", name := "C", is_alive := true, last_accessed_at := 863000 }]
            ["summitflow-a", "summitflow-x", "other"] 864000).1) := by
  refine ⟨rfl, ?_⟩
  have hwf : ∀ n ∈ (["summitflow-a", "summitflow-x", "other"] : List String),
      svcPre.isPrefixOf n.toList = true →
      ∃ i : String, n = "summitflow-" ++ i ∧ hasSub svcPre i.toList = false := by
    intro n hn hp
    simp only [List.mem_cons, List.not_mem_nil, or_false] at hn
    rcases hn with rfl | rfl | rfl
    · exact ⟨"a", by decide, by decide⟩
    · exact ⟨"x", by decide, by decide⟩
    · exact absurd hp (by decide)
  have h := (reconcile_on_startup_spec
    [{ id := "a", name := "A", is_alive := true, last_accessed_at := 863000 },
     { id := "b", name := "B", is_alive := false, last_accessed_at := 0 },
     { id := "c", name := "C", is_alive := true, last_accessed_at := 863000 }]
    ["summitflow-a", "summitflow-x", "other"] 864000 (by decide) hwf).2.1
    { id := "b", name := "B", is_alive := false, last_accessed_at := 0 }
    (by simp)
  intro hmem
  have hb : ({ id := "b", name := "B", is_alive := false, last_accessed_at := 0 : Row})
      = { id := ("b" : String), name := "B", is_alive :=
          (listTmuxSessionIds ["summitflow-a", "summitflow-x", "other"]).contains "b",
          last_accessed_at := 0 } := by
    decide
  rw [hb] at hmem
  have h2 := h.mp hmem
  revert h2
  decide

/-! ## UTF-8 codec and PTY reader lemmas (C8) -/

theorem utf8DecodeOne_ok_le (bs : List Nat) (cp k : Nat)
    (h : utf8DecodeOne bs = .ok cp k) : 1 ≤ k ∧ k ≤ 4 ∧ k ≤ bs.length := by
  rcases bs with _ | ⟨b0, _ | ⟨b1, _ | ⟨b2, _ | ⟨b3, rest⟩⟩⟩⟩ <;>
    simp only [utf8DecodeOne] at h <;>
    (try split_ifs at h) <;>
    first
      | exact Utf8Step.noConfusion h
      | (injection h with h1 h2; refine ⟨by omega, by omega, ?_⟩;
         simp only [List.length_cons, List.length_nil]; omega)

set_option maxRecDepth 4096 in
theorem utf8DecodeOne_ok_determined (bs : List Nat) (cp k : Nat)
    (h : utf8DecodeOne bs = .ok cp k) (y : List Nat) :
    utf8DecodeOne (bs.take k ++ y) = .ok cp k := by
  rcases bs with _ | ⟨b0, _ | ⟨b1, _ | ⟨b2, _ | ⟨b3, rest⟩⟩⟩⟩ <;>
    simp only [utf8DecodeOne] at h <;>
    (try split_ifs at h) <;>
    first
      | exact Utf8Step.noConfusion h
      | (injection h with hcp hk; subst hcp; subst hk;
         simp only [List.take_succ_cons, List.take_zero, List.take_nil,
           List.cons_append, List.nil_append];
         simp only [utf8DecodeOne];
         split_ifs <;> first | rfl | omega | simp_all)

theorem utf8DecodeOne_ok_append (bs y : List Nat) (cp k : Nat)
    (h : utf8DecodeOne bs = .ok cp k) :
    utf8DecodeOne (bs ++ y) = .ok cp k := by
  have hb := utf8DecodeOne_ok_le bs cp k h
  have hdet := utf8DecodeOne_ok_determined bs cp k h (bs.drop k ++ y)
  rwa [← List.append_assoc, List.take_append_drop] at hdet

theorem utf8DecodeOne_err_append_ok (z y : List Nat) (j cp k : Nat)
    (he : utf8DecodeOne z = .err j) (ho : utf8DecodeOne (z ++ y) = .ok cp k) :
    z.length < k := by
  by_contra hc
  push_neg at hc
  have hdet := utf8DecodeOne_ok_determined (z ++ y) cp k ho (z.drop k)
  rw [List.take_append_of_le_length hc, List.take_append_drop] at hdet
  rw [he] at hdet
  exact Utf8Step.noConfusion hdet

theorem utf8DecodeStrictFuel_congr :
    ∀ (fuel fuel' : Nat) (s : List Nat), s.length ≤ fuel → s.length ≤ fuel' →
      utf8DecodeStrictFuel fuel s = utf8DecodeStrictFuel fuel' s := by
  intro fuel
  induction fuel with
  | zero =>
    intro fuel' s hs hs'
    have hnil : s = [] := List.length_eq_zero.mp (Nat.le_zero.mp hs)
    subst hnil
    cases fuel' <;> rfl
  | succ n ih =>
    intro fuel' s hs hs'
    cases s with
    | nil => cases fuel' <;> rfl
    | cons b tl =>
      cases fuel' with
      | zero => simp at hs'
      | succ m =>
        rcases hstep : utf8DecodeOne (b :: tl) with ⟨cp, k⟩ | k
        · have hb := utf8DecodeOne_ok_le _ _ _ hstep
          have hd : ((b :: tl).drop k).length = tl.length + 1 - k := by
            rw [List.length_drop, List.length_cons]
          have hs2 : tl.length + 1 ≤ n + 1 := by simpa using hs
          have hs2' : tl.length + 1 ≤ m + 1 := by simpa using hs'
          have h1 : 1 ≤ k := hb.1
          have hrec := ih m ((b :: tl).drop k) (by omega) (by omega)
          simp only [utf8DecodeStrictFuel, hstep, hrec]
        · simp only [utf8DecodeStrictFuel, hstep]

theorem utf8DecodeStrict_ne_nil (x : List Nat) (hx : x ≠ []) :
    utf8DecodeStrict x =
      match utf8DecodeOne x with
      | .ok cp k =>
        let r := utf8DecodeStrict (x.drop k)
        (cp :: r.1, r.2.map (· + k))
      | .err _ => ([], some 0) := by
  cases x with
  | nil => exact absurd rfl hx
  | cons b tl =>
    show utf8DecodeStrictFuel (tl.length + 1) (b :: tl) = _
    rcases hstep : utf8DecodeOne (b :: tl) with ⟨cp, k⟩ | k
    · have hb := utf8DecodeOne_ok_le _ _ _ hstep
      have h1 : 1 ≤ k := hb.1
      have hk : k ≤ tl.length + 1 := by
        have := hb.2.2
        simpa using this
      have hcong := utf8DecodeStrictFuel_congr tl.length ((b :: tl).drop k).length
        ((b :: tl).drop k)
        (by rw [List.length_drop, List.length_cons]; omega) (le_refl _)
      simp only [utf8DecodeStrictFuel, hstep, utf8DecodeStrict, hcong]
    · simp only [utf8DecodeStrictFuel, hstep]

theorem utf8DecodeReplaceFuel_congr :
    ∀ (fuel fuel' : Nat) (s : List Nat), s.length ≤ fuel → s.length ≤ fuel' →
      utf8DecodeReplaceFuel fuel s = utf8DecodeReplaceFuel fuel' s := by
  intro fuel
  induction fuel with
  | zero =>
    intro fuel' s hs hs'
    have hnil : s = [] := List.length_eq_zero.mp (Nat.le_zero.mp hs)
    subst hnil
    cases fuel' <;> rfl
  | succ n ih =>
    intro fuel' s hs hs'
    cases s with
    | nil => cases fuel' <;> rfl
    | cons b tl =>
      cases fuel' with
      | zero => simp at hs'
      | succ m =>
        have hd : ∀ k, ((b :: tl).drop k).length = tl.length + 1 - k := by
          intro k
          rw [List.length_drop, List.length_cons]
        have hs2 : tl.length + 1 ≤ n + 1 := by simpa using hs
        have hs2' : tl.length + 1 ≤ m + 1 := by simpa using hs'
        rcases hstep : utf8DecodeOne (b :: tl) with ⟨cp, k⟩ | k
        · have h1 : 1 ≤ k := (utf8DecodeOne_ok_le _ _ _ hstep).1
          have hrec := ih m ((b :: tl).drop k) (by rw [hd]; omega) (by rw [hd]; omega)
          simp only [utf8DecodeReplaceFuel, hstep, hrec]
        · have h1 : 1 ≤ k := utf8DecodeOne_skip_pos _ _ _ hstep
          have hrec := ih m ((b :: tl).drop k) (by rw [hd]; omega) (by rw [hd]; omega)
          simp only [utf8DecodeReplaceFuel, hstep, hrec]

theorem utf8DecodeReplace_ne_nil (x : List Nat) (hx : x ≠ []) :
    utf8DecodeReplace x =
      match utf8DecodeOne x with
      | .ok cp k => cp :: utf8DecodeReplace (x.drop k)
      | .err k => 0xFFFD :: utf8DecodeReplace (x.drop k) := by
  cases x with
  | nil => exact absurd rfl hx
  | cons b tl =>
    show utf8DecodeReplaceFuel (tl.length + 1) (b :: tl) = _
    have hd : ∀ k, 1 ≤ k → ((b :: tl).drop k).length ≤ tl.length := by
      intro k h1
      rw [List.length_drop, List.length_cons]
      omega
    rcases hstep : utf8DecodeOne (b :: tl) with ⟨cp, k⟩ | k
    · have h1 : 1 ≤ k := (utf8DecodeOne_ok_le _ _ _ hstep).1
      have hcong := utf8DecodeReplaceFuel_congr tl.length ((b :: tl).drop k).length
        ((b :: tl).drop k) (hd k h1) (le_refl _)
      simp only [utf8DecodeReplaceFuel, hstep, utf8DecodeReplace, hcong]
    · have h1 : 1 ≤ k := utf8DecodeOne_skip_pos _ _ _ hstep
      have hcong := utf8DecodeReplaceFuel_congr tl.length ((b :: tl).drop k).length
        ((b :: tl).drop k) (hd k h1) (le_refl _)
      simp only [utf8DecodeReplaceFuel, hstep, utf8DecodeReplace, hcong]

theorem utf8DecodeStrict_nil : utf8DecodeStrict [] = ([], none) := rfl

theorem drop_length_append (l₁ l₂ : List Nat) (k : Nat) (hk : l₁.length = k) :
    (l₁ ++ l₂).drop k = l₂ := by
  subst hk
  exact List.drop_left l₁ l₂

theorem utf8DecodeStrict_append_of_valid :
    ∀ (n : Nat) (a y cpsa : List Nat), a.length ≤ n →
      utf8DecodeStrict a = (cpsa, none) →
      utf8DecodeStrict (a ++ y) =
        (cpsa ++ (utf8DecodeStrict y).1,
         (utf8DecodeStrict y).2.map (· + a.length)) := by
  intro n
  induction n with
  | zero =>
    intro a y cpsa hle h
    have hnil : a = [] := List.length_eq_zero.mp (Nat.le_zero.mp hle)
    subst hnil
    rw [utf8DecodeStrict_nil, Prod.mk.injEq] at h
    obtain ⟨h1, -⟩ := h
    subst h1
    simp only [List.nil_append, List.length_nil]
    rcases hy : utf8DecodeStrict y with ⟨c2, e2⟩
    cases e2 <;> simp
  | succ n ih =>
    intro a y cpsa hle h
    cases a with
    | nil =>
      rw [utf8DecodeStrict_nil, Prod.mk.injEq] at h
      obtain ⟨h1, -⟩ := h
      subst h1
      simp only [List.nil_append, List.length_nil]
      rcases hy : utf8DecodeStrict y with ⟨c2, e2⟩
      cases e2 <;> simp
    | cons b tl =>
      rcases hstep : utf8DecodeOne (b :: tl) with ⟨cp, k⟩ | k
      · have hb := utf8DecodeOne_ok_le _ _ _ hstep
        rw [utf8DecodeStrict_ne_nil _ (by simp)] at h
        simp only [hstep] at h
        rcases hdk : utf8DecodeStrict ((b :: tl).drop k) with ⟨cps', e'⟩
        rw [hdk] at h
        rw [Prod.mk.injEq] at h
        obtain ⟨h1, h2⟩ := h
        cases e' with
        | some s' => simp at h2
        | none =>
          have hstep2 : utf8DecodeOne ((b :: tl) ++ y) = .ok cp k :=
            utf8DecodeOne_ok_append _ _ _ _ hstep
          rw [utf8DecodeStrict_ne_nil _ (by simp)]
          simp only [hstep2]
          have hdrop : ((b :: tl) ++ y).drop k = ((b :: tl).drop k) ++ y :=
            List.drop_append_of_le_length hb.2.2
          rw [hdrop]
          have hlen : ((b :: tl).drop k).length ≤ n := by
            rw [List.length_drop, List.length_cons]
            have h1' := hb.1
            have hle' : tl.length + 1 ≤ n + 1 := by simpa using hle
            omega
          have hrec := ih ((b :: tl).drop k) y cps' hlen (by rw [hdk])
          rw [hrec]
          rw [Prod.mk.injEq]
          refine ⟨by rw [← h1, List.cons_append], ?_⟩
          rcases hy2 : (utf8DecodeStrict y).2 with _ | v
          · simp
          · simp only [Option.map_some']
            have h4 : v + ((b :: tl).drop k).length + k = v + (b :: tl).length := by
              rw [List.length_drop, List.length_cons]
              have h1' := hb.1
              have h2' := hb.2.2
              simp only [List.length_cons] at h2' ⊢
              omega
            rw [h4]
      · rw [utf8DecodeStrict_ne_nil _ (by simp)] at h
        simp only [hstep] at h
        rw [Prod.mk.injEq] at h
        exact absurd h.2 (by simp)

theorem utf8DecodeStrict_append_valid (a y cpsa : List Nat)
    (h : utf8DecodeStrict a = (cpsa, none)) :
    utf8DecodeStrict (a ++ y) =
      (cpsa ++ (utf8DecodeStrict y).1,
       (utf8DecodeStrict y).2.map (· + a.length)) :=
  utf8DecodeStrict_append_of_valid a.length a y cpsa (le_refl _) h

theorem utf8DecodeStrict_error_split :
    ∀ (n : Nat) (x cps₁ : List Nat) (s : Nat), x.length ≤ n →
      utf8DecodeStrict x = (cps₁, some s) →
      s < x.length ∧ utf8DecodeStrict (x.take s) = (cps₁, none) ∧
        ∃ j, utf8DecodeOne (x.drop s) = .err j := by
  intro n
  induction n with
  | zero =>
    intro x cps₁ s hle h
    have hnil : x = [] := List.length_eq_zero.mp (Nat.le_zero.mp hle)
    subst hnil
    rw [utf8DecodeStrict_nil, Prod.mk.injEq] at h
    exact absurd h.2 (by simp)
  | succ n ih =>
    intro x cps₁ s hle h
    cases x with
    | nil =>
      rw [utf8DecodeStrict_nil, Prod.mk.injEq] at h
      exact absurd h.2 (by simp)
    | cons b tl =>
      rcases hstep : utf8DecodeOne (b :: tl) with ⟨cp, k⟩ | j
      · have hb := utf8DecodeOne_ok_le _ _ _ hstep
        rw [utf8DecodeStrict_ne_nil _ (by simp)] at h
        simp only [hstep] at h
        rcases hdk : utf8DecodeStrict ((b :: tl).drop k) with ⟨cps', e'⟩
        rw [hdk] at h
        rw [Prod.mk.injEq] at h
        obtain ⟨h1, h2⟩ := h
        cases e' with
        | none => simp at h2
        | some s' =>
          have h2' : s' + k = s := by simpa using h2
          have hlen : ((b :: tl).drop k).length ≤ n := by
            rw [List.length_drop, List.length_cons]
            have h1' := hb.1
            have hle' : tl.length + 1 ≤ n + 1 := by simpa using hle
            omega
          obtain ⟨ih1, ih2, j, ih3⟩ := ih ((b :: tl).drop k) cps' s' hlen (by rw [hdk])
          have hklen : k ≤ tl.length + 1 := by
            have h2'' := hb.2.2
            simpa using h2''
          have hdlen : ((b :: tl).drop k).length = tl.length + 1 - k := by
            rw [List.length_drop, List.length_cons]
          refine ⟨?_, ?_, ?_⟩
          · simp only [List.length_cons]
            omega
          · have hs_eq : s = k + s' := by omega
            rw [hs_eq, List.take_add]
            have hlt : ((b :: tl).take k).length = k := by
              rw [List.length_take, List.length_cons]
              omega
            have hne2 : ((b :: tl).take k ++ ((b :: tl).drop k).take s' : List Nat) ≠ [] := by
              apply List.length_pos.mp
              rw [List.length_append, hlt]
              have h1' := hb.1
              omega
            rw [utf8DecodeStrict_ne_nil _ hne2]
            have hdet := utf8DecodeOne_ok_determined (b :: tl) cp k hstep
              (((b :: tl).drop k).take s')
            simp only [hdet]
            have hdl := drop_length_append ((b :: tl).take k)
              (((b :: tl).drop k).take s') k hlt
            rw [hdl, ih2]
            simp [h1]
          · refine ⟨j, ?_⟩
            have hs_eq : s = k + s' := by omega
            rw [hs_eq, ← List.drop_drop]
            exact ih3
      · rw [utf8DecodeStrict_ne_nil _ (by simp)] at h
        simp only [hstep] at h
        rw [Prod.mk.injEq] at h
        obtain ⟨h1, h2⟩ := h
        have hs0 : 0 = s := by simpa using h2
        subst hs0
        refine ⟨by simp, ?_, ⟨j, ?_⟩⟩
        · rw [List.take_zero, utf8DecodeStrict_nil, ← h1]
        · rw [List.drop_zero]
          exact hstep

theorem utf8DecodeReplace_of_valid :
    ∀ (n : Nat) (x cps : List Nat), x.length ≤ n →
      utf8DecodeStrict x = (cps, none) → utf8DecodeReplace x = cps := by
  intro n
  induction n with
  | zero =>
    intro x cps hle h
    have hnil : x = [] := List.length_eq_zero.mp (Nat.le_zero.mp hle)
    subst hnil
    rw [utf8DecodeStrict_nil, Prod.mk.injEq] at h
    rw [← h.1]
    rfl
  | succ n ih =>
    intro x cps hle h
    cases x with
    | nil =>
      rw [utf8DecodeStrict_nil, Prod.mk.injEq] at h
      rw [← h.1]
      rfl
    | cons b tl =>
      rcases hstep : utf8DecodeOne (b :: tl) with ⟨cp, k⟩ | j
      · have hb := utf8DecodeOne_ok_le _ _ _ hstep
        rw [utf8DecodeStrict_ne_nil _ (by simp)] at h
        simp only [hstep] at h
        rcases hdk : utf8DecodeStrict ((b :: tl).drop k) with ⟨cps', e'⟩
        rw [hdk] at h
        rw [Prod.mk.injEq] at h
        obtain ⟨h1, h2⟩ := h
        cases e' with
        | some s' => simp at h2
        | none =>
          rw [utf8DecodeReplace_ne_nil _ (by simp)]
          simp only [hstep]
          have hlen : ((b :: tl).drop k).length ≤ n := by
            rw [List.length_drop, List.length_cons]
            have h1' := hb.1
            have hle' : tl.length + 1 ≤ n + 1 := by simpa using hle
            omega
          rw [ih ((b :: tl).drop k) cps' hlen (by rw [hdk])]
          exact h1
      · rw [utf8DecodeStrict_ne_nil _ (by simp)] at h
        simp only [hstep] at h
        rw [Prod.mk.injEq] at h
        exact absurd h.2 (by simp)

theorem utf8DecodeStrict_valid_head (x cps : List Nat) (hx : x ≠ [])
    (h : utf8DecodeStrict x = (cps, none)) :
    ∃ cp k, utf8DecodeOne x = .ok cp k := by
  rcases hstep : utf8DecodeOne x with ⟨cp, k⟩ | j
  · exact ⟨cp, k, rfl⟩
  · rw [utf8DecodeStrict_ne_nil _ hx] at h
    simp only [hstep] at h
    rw [Prod.mk.injEq] at h
    exact absurd h.2 (by simp)

theorem readerEmit_invariant :
    ∀ (rest : List (List Nat)) (buf cps : List Nat),
      buf.length ≤ 3 →
      utf8DecodeStrict (buf ++ rest.flatten) = (cps, none) →
      readerEmit buf rest ++ (utf8DecodeStrict (readerFinalBuf buf rest)).1 = cps
      ∧ (readerFinalBuf buf rest).length ≤ 3 := by
  intro rest
  induction rest with
  | nil =>
    intro buf cps hb h
    refine ⟨?_, ?_⟩
    · simp only [readerEmit, readerFinalBuf]
      rw [List.nil_append]
      have h' : utf8DecodeStrict buf = (cps, none) := by simpa using h
      rw [h']
    · simpa only [readerFinalBuf] using hb
  | cons c cs ih =>
    intro buf cps hb h
    have hx : buf ++ (c :: cs).flatten = (buf ++ c) ++ cs.flatten := by
      rw [List.flatten_cons, ← List.append_assoc]
    rw [hx] at h
    rcases hsx : utf8DecodeStrict (buf ++ c) with ⟨cps₁, serr⟩
    cases serr with
    | none =>
      have hdc : decodeChunk buf c = (cps₁, []) := by
        unfold decodeChunk
        simp only [hsx]
      have h4 := utf8DecodeStrict_append_valid (buf ++ c) cs.flatten cps₁ hsx
      rw [h] at h4
      rw [Prod.mk.injEq] at h4
      obtain ⟨h41, h42⟩ := h4
      rcases hsy : utf8DecodeStrict cs.flatten with ⟨cpsy, ey⟩
      simp only [hsy] at h41 h42
      cases ey with
      | some s => simp at h42
      | none =>
        have hrec := ih [] cpsy (by simp) (by simpa using hsy)
        refine ⟨?_, ?_⟩
        · simp only [readerEmit, readerFinalBuf, hdc]
          rw [List.append_assoc, hrec.1]
          exact h41.symm
        · simp only [readerFinalBuf, hdc]
          exact hrec.2
    | some s =>
      obtain ⟨hslt, htake, j, herr⟩ := utf8DecodeStrict_error_split
        (buf ++ c).length (buf ++ c) cps₁ s (le_refl _) hsx
      have hxy : (buf ++ c) ++ cs.flatten
          = (buf ++ c).take s ++ ((buf ++ c).drop s ++ cs.flatten) := by
        rw [← List.append_assoc, List.take_append_drop]
      have h4 := utf8DecodeStrict_append_valid ((buf ++ c).take s)
        ((buf ++ c).drop s ++ cs.flatten) cps₁ htake
      rw [← hxy, h] at h4
      rw [Prod.mk.injEq] at h4
      obtain ⟨h41, h42⟩ := h4
      rcases hst : utf8DecodeStrict ((buf ++ c).drop s ++ cs.flatten) with ⟨cpst, et⟩
      simp only [hst] at h41 h42
      cases et with
      | some s2 => simp at h42
      | none =>
        have hdne : (buf ++ c).drop s ≠ [] := by
          apply List.length_pos.mp
          rw [List.length_drop]
          omega
        have htne : ((buf ++ c).drop s ++ cs.flatten : List Nat) ≠ [] := by
          intro hcon
          rcases List.append_eq_nil.mp hcon with ⟨h1, -⟩
          exact hdne h1
        obtain ⟨cp, k, hok⟩ := utf8DecodeStrict_valid_head _ cpst htne (by rw [hst])
        have hlt : ((buf ++ c).drop s).length < k :=
          utf8DecodeOne_err_append_ok _ _ j cp k herr hok
        have hk4 : k ≤ 4 := (utf8DecodeOne_ok_le _ _ _ hok).2.1
        have hdl3 : ((buf ++ c).drop s).length ≤ 3 := by omega
        have hlen_s : (buf ++ c).length ≤ s + 3 := by
          rw [List.length_drop] at hdl3
          omega
        have hbuflen : ¬ (MAX_UTF8_BUFFER < ((buf ++ c).drop s).length) := by
          simp only [MAX_UTF8_BUFFER]
          omega
        have hdc : decodeChunk buf c
            = (utf8DecodeReplace ((buf ++ c).take s), (buf ++ c).drop s) := by
          unfold decodeChunk
          simp only [hsx]
          rw [if_pos hlen_s, if_neg hbuflen]
        have hrepl : utf8DecodeReplace ((buf ++ c).take s) = cps₁ :=
          utf8DecodeReplace_of_valid ((buf ++ c).take s).length _ cps₁ (le_refl _) htake
        have hrec := ih ((buf ++ c).drop s) cpst hdl3 (by rw [hst])
        refine ⟨?_, ?_⟩
        · simp only [readerEmit, readerFinalBuf, hdc]
          rw [List.append_assoc, hrec.1, hrepl]
          exact h41.symm
        · simp only [readerFinalBuf, hdc]
          exact hrec.2

/-- C8: over any sequence of PTY reads whose concatenated byte stream is
valid UTF-8, the concatenation of the text the reader emits is an
order-preserving prefix of the decoding of the concatenated stream: it
equals that decoding minus only the decoding of the final pending
continuation buffer, which holds at most `MAX_UTF8_BUFFER` trailing bytes
(a multi-byte sequence split across two reads is therefore buffered and
decoded with the next read, not dropped or replaced). -/
theorem read_pty_output_stream_spec (chunks : List (List Nat)) (cps : List Nat)
    (h : utf8DecodeStrict chunks.flatten = (cps, none)) :
    readerEmit [] chunks ++ (utf8DecodeStrict (readerFinalBuf [] chunks)).1 = cps
    ∧ (readerFinalBuf [] chunks).length ≤ MAX_UTF8_BUFFER := by
  have hinv := readerEmit_invariant chunks [] cps (by simp) (by simpa using h)
  refine ⟨hinv.1, ?_⟩
  have h2 := hinv.2
  simp only [MAX_UTF8_BUFFER]
  omega

/-- C8 witness: the euro sign `U+20AC` (`E2 82 AC`) split across two reads
is emitted intact once the second read arrives. -/
theorem read_pty_output_stream_spec_witness :
    utf8DecodeStrict ([[0xE2, 0x82], [0xAC, 0x41]] : List (List Nat)).flatten
        = ([0x20AC, 0x41], none)
    ∧ (readerEmit [] [[0xE2, 0x82], [0xAC, 0x41]]
          ++ (utf8DecodeStrict (readerFinalBuf [] [[0xE2, 0x82], [0xAC, 0x41]])).1
        = [0x20AC, 0x41]
      ∧ (readerFinalBuf [] [[0xE2, 0x82], [0xAC, 0x41]]).length ≤ MAX_UTF8_BUFFER) :=
  ⟨by decide,
   read_pty_output_stream_spec [[0xE2, 0x82], [0xAC, 0x41]] [0x20AC, 0x41] (by decide)⟩

end Terminal
